import Mathlib

/-!
# Verification of the gurthang comux codec, replay orchestrator and mutator

This development is a shallow embedding of the C sources of gurthang:

* `src/comux/comux.c`   - the comux manifest codec (buffer mode and stream mode)
* `src/preload.c`       - the replay orchestrator (controller and chunk workers)
* `src/mutator.c`       - the AFL++ custom mutator (validators, fuzz pipeline, trimmer)
* `src/utils/dict.c`    - the keyword dictionary
* `src/utils/utils.c`   - byte conversions and fatal-error exit

Machine integers are modelled as `Nat` with explicit bounds where the C types
impose them (uint32_t, uint64_t).  Byte buffers and file contents are modelled
as `List Nat`; a `read` on a regular file returns `min requested remaining`
bytes.  The C shift-and-or byte packing `(val >> shift) & 0xff` is rendered as
`val / 2 ^ shift % 256`, and the or-combination of disjoint byte ranges as
addition, which coincide exactly for byte values below 256.
-/

namespace Gurthang

deriving instance DecidableEq for Except

/-- The 8 ASCII bytes of the magic literal used by the codec (comux.h). -/
def COMUX_MAGIC : List Nat := [0x63, 0x6F, 0x6D, 0x75, 0x78, 0x21, 0x21, 0x21]

/-- COMUX_MAGIC_LEN from comux.h. -/
def COMUX_MAGIC_LEN : Nat := 8

/-- COMUX_CHUNK_DATA_MAXLEN from comux.h. -/
def COMUX_CHUNK_DATA_MAXLEN : Nat := 524288

/-- u32_to_bytes from utils.c: little-endian packing of a uint32_t value. -/
def u32_to_bytes (v : Nat) : List Nat :=
  [v % 256, v / 2 ^ 8 % 256, v / 2 ^ 16 % 256, v / 2 ^ 24 % 256]

/-- u64_to_bytes from utils.c: little-endian packing of a uint64_t value. -/
def u64_to_bytes (v : Nat) : List Nat :=
  [v % 256, v / 2 ^ 8 % 256, v / 2 ^ 16 % 256, v / 2 ^ 24 % 256,
   v / 2 ^ 32 % 256, v / 2 ^ 40 % 256, v / 2 ^ 48 % 256, v / 2 ^ 56 % 256]

/-- bytes_to_u32 from utils.c: little-endian unpacking of 4 bytes.  Every call
site guarantees at least 4 bytes; the fallback case is unreachable. -/
def bytes_to_u32 : List Nat → Nat
  | b0 :: b1 :: b2 :: b3 :: _ => b0 + b1 * 2 ^ 8 + b2 * 2 ^ 16 + b3 * 2 ^ 24
  | _ => 0

/-- bytes_to_u64 from utils.c: little-endian unpacking of 8 bytes. -/
def bytes_to_u64 : List Nat → Nat
  | b0 :: b1 :: b2 :: b3 :: b4 :: b5 :: b6 :: b7 :: _ =>
      b0 + b1 * 2 ^ 8 + b2 * 2 ^ 16 + b3 * 2 ^ 24 +
      b4 * 2 ^ 32 + b5 * 2 ^ 40 + b6 * 2 ^ 48 + b7 * 2 ^ 56
  | _ => 0

theorem u32_to_bytes_length (v : Nat) : (u32_to_bytes v).length = 4 := rfl

theorem u64_to_bytes_length (v : Nat) : (u64_to_bytes v).length = 8 := rfl

theorem bytes_to_u32_u32_to_bytes (v : Nat) (h : v < 2 ^ 32) :
    bytes_to_u32 (u32_to_bytes v) = v := by
  simp only [u32_to_bytes, bytes_to_u32]
  omega

theorem bytes_to_u64_u64_to_bytes (v : Nat) (h : v < 2 ^ 64) :
    bytes_to_u64 (u64_to_bytes v) = v := by
  simp only [u64_to_bytes, bytes_to_u64]
  omega

theorem bytes_to_u32_append (b r : List Nat) (h : b.length = 4) :
    bytes_to_u32 (b ++ r) = bytes_to_u32 b := by
  match b, h with
  | [b0, b1, b2, b3], _ => rfl

theorem bytes_to_u64_append (b r : List Nat) (h : b.length = 8) :
    bytes_to_u64 (b ++ r) = bytes_to_u64 b := by
  match b, h with
  | [b0, b1, b2, b3, b4, b5, b6, b7], _ => rfl

/-- comux_parse_result_t from comux.h. -/
inductive comux_parse_result_t where
  | OK
  | EOF
  | BAD_MAGIC
  | BAD_VERSION
  | BAD_NUM_CONNS
  | BAD_NUM_CHUNKS
  | BAD_CONN_ID
  | BAD_CONN_LEN
  | BAD_CONN_SCHED
  | BAD_CONN_FLAGS
  | CONN_LEN_MISMATCH
deriving DecidableEq, Repr

/-- comux_header_t from comux.h.  All integer fields are uint32_t in C. -/
structure comux_header_t where
  magic : List Nat
  version : Nat
  num_conns : Nat
  num_chunks : Nat
deriving DecidableEq, Repr

/-- comux_cinfo_t from comux.h, without the intrusive list element.  The
`offset` field is not set by the buffer-mode functions and is passed separately
where the stream-mode orchestrator needs it.  `id`, `sched` and `flags` are
uint32_t, `len` is uint64_t, `data` is the owned payload buffer. -/
structure comux_cinfo_t where
  id : Nat
  len : Nat
  sched : Nat
  flags : Nat
  data : List Nat
deriving DecidableEq, Repr

/-- comux_manifest_t from comux.h: a header plus the ordered chunk list. -/
structure comux_manifest_t where
  header : comux_header_t
  cinfo_list : List comux_cinfo_t
deriving DecidableEq, Repr

/-- comux_header_write_buffer from comux.c: fails (returns the negated needed
size) when fewer than 20 bytes of room are available, otherwise emits the
magic and the three little-endian uint32_t fields. -/
def comux_header_write_buffer (header : comux_header_t) (max_len : Nat) :
    Option (List Nat) :=
  if max_len < 20 then none
  else some (header.magic ++ u32_to_bytes header.version ++
             u32_to_bytes header.num_conns ++ u32_to_bytes header.num_chunks)

/-- comux_header_read_buffer from comux.c: space is checked before each field,
with a field-specific error code; the magic bytes are compared to
COMUX_MAGIC.  On success returns the header and the read length (20). -/
def comux_header_read_buffer (buff : List Nat) :
    Except comux_parse_result_t (comux_header_t × Nat) :=
  if buff.length < 8 then .error .BAD_MAGIC
  else if buff.take 8 ≠ COMUX_MAGIC then .error .BAD_MAGIC
  else if buff.length < 12 then .error .BAD_VERSION
  else if buff.length < 16 then .error .BAD_NUM_CONNS
  else if buff.length < 20 then .error .BAD_NUM_CHUNKS
  else .ok ({ magic := buff.take 8,
              version := bytes_to_u32 (buff.drop 8),
              num_conns := bytes_to_u32 (buff.drop 12),
              num_chunks := bytes_to_u32 (buff.drop 16) }, 20)

/-- comux_cinfo_write_buffer from comux.c: fails when fewer than 20 bytes of
room are available, otherwise emits id (u32), len (u64), sched (u32),
flags (u32), little-endian. -/
def comux_cinfo_write_buffer (cinfo : comux_cinfo_t) (max_len : Nat) :
    Option (List Nat) :=
  if max_len < 20 then none
  else some (u32_to_bytes cinfo.id ++ u64_to_bytes cinfo.len ++
             u32_to_bytes cinfo.sched ++ u32_to_bytes cinfo.flags)

/-- comux_cinfo_read_buffer from comux.c: space is checked before each field
with a field-specific error code.  The cinfo starts from comux_cinfo_init
defaults (empty data).  On success returns the cinfo and the read length. -/
def comux_cinfo_read_buffer (buff : List Nat) :
    Except comux_parse_result_t (comux_cinfo_t × Nat) :=
  if buff.length < 4 then .error .BAD_CONN_ID
  else if buff.length < 12 then .error .BAD_CONN_LEN
  else if buff.length < 16 then .error .BAD_CONN_SCHED
  else if buff.length < 20 then .error .BAD_CONN_FLAGS
  else .ok ({ id := bytes_to_u32 buff,
              len := bytes_to_u64 (buff.drop 4),
              sched := bytes_to_u32 (buff.drop 12),
              flags := bytes_to_u32 (buff.drop 16),
              data := [] }, 20)

/-- comux_cinfo_data_write_buffer from comux.c: needs `len` bytes of room and
copies exactly `len` bytes of the data buffer.  Callers keep
`len ≤ data.length` (the C memcpy requires it). -/
def comux_cinfo_data_write_buffer (cinfo : comux_cinfo_t) (buff_len : Nat) :
    Option (List Nat) :=
  if buff_len < cinfo.len then none
  else some (cinfo.data.take cinfo.len)

/-- comux_cinfo_data_read_buffer from comux.c: the cap is the declared length
clamped to COMUX_CHUNK_DATA_MAXLEN and then to the bytes available; the data
buffer is loaded with `cap` bytes and `len` is updated to `cap`, which is also
returned as the loaded count. -/
def comux_cinfo_data_read_buffer (cinfo : comux_cinfo_t) (buff : List Nat) :
    comux_cinfo_t × Nat :=
  let cap0 := if cinfo.len > COMUX_CHUNK_DATA_MAXLEN
              then COMUX_CHUNK_DATA_MAXLEN else cinfo.len
  let cap := min cap0 buff.length
  ({ cinfo with data := buff.take cap, len := cap }, cap)

/-- The chunk loop of comux_manifest_write_buffer from comux.c: each chunk
header and data segment is written in turn; the remaining space is reduced by
the written amount (clamped at zero by MAX) after each write. -/
def comux_manifest_write_buffer_chunks :
    List comux_cinfo_t → Nat → Option (List Nat)
  | [], _ => some []
  | c :: cs, space =>
    match comux_cinfo_write_buffer c space with
    | none => none
    | some hdr =>
      match comux_cinfo_data_write_buffer c (space - 20) with
      | none => none
      | some data =>
        match comux_manifest_write_buffer_chunks cs (space - 20 - c.len) with
        | none => none
        | some rest => some (hdr ++ data ++ rest)

/-- comux_manifest_write_buffer from comux.c: writes the header, then every
chunk in list order.  Any insufficient-room failure aborts the encode. -/
def comux_manifest_write_buffer (manifest : comux_manifest_t) (max_len : Nat) :
    Option (List Nat) :=
  match comux_header_write_buffer manifest.header max_len with
  | none => none
  | some hdr =>
    match comux_manifest_write_buffer_chunks manifest.cinfo_list (max_len - 20) with
    | none => none
    | some chunks => some (hdr ++ chunks)

/-- The per-chunk loop of comux_manifest_read_buffer from comux.c, iterated
`num_chunks` times.  Returns the chunks collected, the bytes consumed, and the
final value of the internal `result` variable.  A chunk-header parse error or
a short data segment frees the chunk (it is not collected), records the error
in `result` and leaves the loop.  On the short-data path the 20 record-header
bytes have already been added to the consumed total (`total_rcount += rcount`
precedes the data read in the source) while the short data count is not
added; on a record parse error nothing was added. -/
def comux_manifest_read_buffer_loop :
    Nat → List Nat → List comux_cinfo_t × Nat × comux_parse_result_t
  | 0, _ => ([], 0, .OK)
  | n + 1, buff =>
    match comux_cinfo_read_buffer buff with
    | .error e => ([], 0, e)
    | .ok (cinfo, rcount) =>
      let loaded := comux_cinfo_data_read_buffer cinfo (buff.drop rcount)
      if loaded.2 < cinfo.len then ([], rcount, .CONN_LEN_MISMATCH)
      else
        let rest := comux_manifest_read_buffer_loop n (buff.drop (rcount + loaded.2))
        (loaded.1 :: rest.1, rcount + loaded.2 + rest.2.1, rest.2.2)

/-- comux_manifest_read_buffer from comux.c: reads the header (propagating its
error codes), then runs the chunk loop; the internal `result` of the loop is
discarded and COMUX_PARSE_OK is returned together with the manifest and the
consumed byte count — exactly as in the source, which ends with
`return COMUX_PARSE_OK` regardless of the loop outcome. -/
def comux_manifest_read_buffer (buff : List Nat) :
    Except comux_parse_result_t (comux_manifest_t × Nat) :=
  match comux_header_read_buffer buff with
  | .error e => .error e
  | .ok (header, hcount) =>
    let loop := comux_manifest_read_buffer_loop header.num_chunks (buff.drop hcount)
    .ok ({ header := header, cinfo_list := loop.1 }, hcount + loop.2.1)

/-- Internal result of the comux_manifest_read_buffer chunk loop (the value of
the local `result` variable when the function returns). -/
def comux_manifest_read_buffer_internal_result (buff : List Nat) :
    comux_parse_result_t :=
  match comux_header_read_buffer buff with
  | .error e => e
  | .ok (header, hcount) =>
    (comux_manifest_read_buffer_loop header.num_chunks (buff.drop hcount)).2.2

/-- Well-formedness of a chunk as representable and encodable by the C
code: integer fields within their C types, the declared length equal to the
payload length and within the codec clamp, and byte-valued payload. -/
def comux_cinfo_wf (c : comux_cinfo_t) : Prop :=
  c.id < 2 ^ 32 ∧ c.sched < 2 ^ 32 ∧ c.flags < 2 ^ 32 ∧
  c.len = c.data.length ∧ c.len ≤ COMUX_CHUNK_DATA_MAXLEN ∧
  ∀ b ∈ c.data, b < 256

instance (c : comux_cinfo_t) : Decidable (comux_cinfo_wf c) := by
  unfold comux_cinfo_wf; infer_instance

/-- Well-formedness of a manifest: correct magic, fields within their C types,
`num_chunks` equal to the number of chunk records, and well-formed chunks. -/
def comux_manifest_wf (m : comux_manifest_t) : Prop :=
  m.header.magic = COMUX_MAGIC ∧ m.header.version < 2 ^ 32 ∧
  m.header.num_conns < 2 ^ 32 ∧ m.header.num_chunks < 2 ^ 32 ∧
  m.header.num_chunks = m.cinfo_list.length ∧
  ∀ c ∈ m.cinfo_list, comux_cinfo_wf c

instance (m : comux_manifest_t) : Decidable (comux_manifest_wf m) := by
  unfold comux_manifest_wf; infer_instance

/-- Total encoded size of a manifest: 20 header bytes plus a 20-byte record
header and `len` payload bytes per chunk. -/
def comux_manifest_size (m : comux_manifest_t) : Nat :=
  20 + (m.cinfo_list.map (fun c => 20 + c.len)).sum

/-- The byte string comux_header_write_buffer emits when room suffices. -/
def comux_header_bytes (header : comux_header_t) : List Nat :=
  header.magic ++ u32_to_bytes header.version ++
  u32_to_bytes header.num_conns ++ u32_to_bytes header.num_chunks

/-- The byte string comux_cinfo_write_buffer emits when room suffices. -/
def comux_cinfo_record_bytes (c : comux_cinfo_t) : List Nat :=
  u32_to_bytes c.id ++ u64_to_bytes c.len ++
  u32_to_bytes c.sched ++ u32_to_bytes c.flags

/-- The byte string the manifest writer emits for a chunk list. -/
def comux_chunks_bytes (cs : List comux_cinfo_t) : List Nat :=
  (cs.map (fun c => comux_cinfo_record_bytes c ++ c.data.take c.len)).flatten

/-- Encoded size of a chunk list. -/
def comux_chunks_size (cs : List comux_cinfo_t) : Nat :=
  (cs.map (fun c => 20 + c.len)).sum

theorem comux_chunks_bytes_cons (c : comux_cinfo_t) (cs : List comux_cinfo_t) :
    comux_chunks_bytes (c :: cs) =
      comux_cinfo_record_bytes c ++ (c.data.take c.len ++ comux_chunks_bytes cs) := by
  simp [comux_chunks_bytes]

theorem comux_chunks_size_cons (c : comux_cinfo_t) (cs : List comux_cinfo_t) :
    comux_chunks_size (c :: cs) = 20 + c.len + comux_chunks_size cs := by
  simp [comux_chunks_size]

theorem comux_header_bytes_length (h : comux_header_t)
    (hm : h.magic.length = 8) : (comux_header_bytes h).length = 20 := by
  simp [comux_header_bytes, hm, u32_to_bytes]

theorem comux_cinfo_record_bytes_length (c : comux_cinfo_t) :
    (comux_cinfo_record_bytes c).length = 20 := by
  simp [comux_cinfo_record_bytes, u32_to_bytes, u64_to_bytes]

theorem comux_header_write_buffer_eq (h : comux_header_t) (max_len : Nat)
    (hroom : 20 ≤ max_len) :
    comux_header_write_buffer h max_len = some (comux_header_bytes h) := by
  simp [comux_header_write_buffer, comux_header_bytes, Nat.not_lt.mpr hroom]

theorem comux_cinfo_write_buffer_eq (c : comux_cinfo_t) (max_len : Nat)
    (hroom : 20 ≤ max_len) :
    comux_cinfo_write_buffer c max_len = some (comux_cinfo_record_bytes c) := by
  simp [comux_cinfo_write_buffer, comux_cinfo_record_bytes, Nat.not_lt.mpr hroom]

theorem comux_manifest_write_buffer_chunks_eq :
    ∀ (cs : List comux_cinfo_t) (space : Nat),
    comux_chunks_size cs ≤ space →
    comux_manifest_write_buffer_chunks cs space = some (comux_chunks_bytes cs)
  | [], space, _ => by simp [comux_manifest_write_buffer_chunks, comux_chunks_bytes]
  | c :: cs, space, hroom => by
    rw [comux_chunks_size_cons] at hroom
    have h20 : 20 ≤ space := by omega
    have hlen : ¬ (space - 20 < c.len) := by omega
    have hrest : comux_chunks_size cs ≤ space - 20 - c.len := by omega
    rw [comux_manifest_write_buffer_chunks, comux_cinfo_write_buffer_eq c space h20]
    simp only [comux_cinfo_data_write_buffer, if_neg hlen,
      comux_manifest_write_buffer_chunks_eq cs _ hrest,
      comux_chunks_bytes_cons, List.append_assoc]

theorem comux_manifest_write_buffer_eq (m : comux_manifest_t) (max_len : Nat)
    (hroom : comux_manifest_size m ≤ max_len) :
    comux_manifest_write_buffer m max_len =
      some (comux_header_bytes m.header ++ comux_chunks_bytes m.cinfo_list) := by
  have hsz : comux_manifest_size m = 20 + comux_chunks_size m.cinfo_list := rfl
  rw [hsz] at hroom
  have h20 : 20 ≤ max_len := by omega
  have hrest : comux_chunks_size m.cinfo_list ≤ max_len - 20 := by omega
  simp [comux_manifest_write_buffer, comux_header_write_buffer_eq m.header max_len h20,
    comux_manifest_write_buffer_chunks_eq m.cinfo_list _ hrest]

theorem comux_header_read_buffer_eq (h : comux_header_t) (rest : List Nat)
    (hm : h.magic = COMUX_MAGIC) (hv : h.version < 2 ^ 32)
    (hc : h.num_conns < 2 ^ 32) (hk : h.num_chunks < 2 ^ 32) :
    comux_header_read_buffer (comux_header_bytes h ++ rest) = .ok (h, 20) := by
  have hml : h.magic.length = 8 := by rw [hm]; rfl
  have hlen : (comux_header_bytes h ++ rest).length = 20 + rest.length := by
    simp [comux_header_bytes_length h hml]
  have htake : (comux_header_bytes h ++ rest).take 8 = h.magic := by
    rw [comux_header_bytes, List.append_assoc, List.append_assoc, List.append_assoc,
      List.take_left' hml]
  have hdrop8 : (comux_header_bytes h ++ rest).drop 8 =
      u32_to_bytes h.version ++ (u32_to_bytes h.num_conns ++
        (u32_to_bytes h.num_chunks ++ rest)) := by
    rw [comux_header_bytes, List.append_assoc, List.append_assoc, List.append_assoc,
      List.drop_left' hml]
  have hdrop12 : (comux_header_bytes h ++ rest).drop 12 =
      u32_to_bytes h.num_conns ++ (u32_to_bytes h.num_chunks ++ rest) := by
    rw [← List.drop_drop 4 8, hdrop8, List.drop_left' (u32_to_bytes_length _)]
  have hdrop16 : (comux_header_bytes h ++ rest).drop 16 =
      u32_to_bytes h.num_chunks ++ rest := by
    rw [← List.drop_drop 4 12, hdrop12, List.drop_left' (u32_to_bytes_length _)]
  have hmag : ¬ (h.magic ≠ COMUX_MAGIC) := by simp [hm]
  have h1 : ¬ (20 + rest.length < 8) := by omega
  have h2 : ¬ (20 + rest.length < 12) := by omega
  have h3 : ¬ (20 + rest.length < 16) := by omega
  have h4 : ¬ (20 + rest.length < 20) := by omega
  simp only [comux_header_read_buffer, hlen, htake, hdrop8, hdrop12, hdrop16,
    if_neg h1, if_neg h2, if_neg h3, if_neg h4, if_neg hmag]
  rw [bytes_to_u32_append _ _ (u32_to_bytes_length _),
      bytes_to_u32_append _ _ (u32_to_bytes_length _),
      bytes_to_u32_append _ _ (u32_to_bytes_length _),
      bytes_to_u32_u32_to_bytes _ hv, bytes_to_u32_u32_to_bytes _ hc,
      bytes_to_u32_u32_to_bytes _ hk]

theorem comux_cinfo_read_buffer_eq (c : comux_cinfo_t) (rest : List Nat)
    (hid : c.id < 2 ^ 32) (hsched : c.sched < 2 ^ 32) (hflags : c.flags < 2 ^ 32)
    (hlen64 : c.len < 2 ^ 64) :
    comux_cinfo_read_buffer (comux_cinfo_record_bytes c ++ rest) =
      .ok ({ c with data := [] }, 20) := by
  have hlen : (comux_cinfo_record_bytes c ++ rest).length = 20 + rest.length := by
    simp [comux_cinfo_record_bytes_length c]
  have hdrop4 : (comux_cinfo_record_bytes c ++ rest).drop 4 =
      u64_to_bytes c.len ++ (u32_to_bytes c.sched ++ (u32_to_bytes c.flags ++ rest)) := by
    rw [comux_cinfo_record_bytes, List.append_assoc, List.append_assoc, List.append_assoc,
      List.drop_left' (u32_to_bytes_length _)]
  have hdrop12 : (comux_cinfo_record_bytes c ++ rest).drop 12 =
      u32_to_bytes c.sched ++ (u32_to_bytes c.flags ++ rest) := by
    rw [← List.drop_drop 8 4, hdrop4, List.drop_left' (u64_to_bytes_length _)]
  have hdrop16 : (comux_cinfo_record_bytes c ++ rest).drop 16 =
      u32_to_bytes c.flags ++ rest := by
    rw [← List.drop_drop 4 12, hdrop12, List.drop_left' (u32_to_bytes_length _)]
  have hhead : bytes_to_u32 (comux_cinfo_record_bytes c ++ rest) = c.id := by
    rw [comux_cinfo_record_bytes, List.append_assoc, List.append_assoc, List.append_assoc,
      bytes_to_u32_append _ _ (u32_to_bytes_length _), bytes_to_u32_u32_to_bytes _ hid]
  have h1 : ¬ (20 + rest.length < 4) := by omega
  have h2 : ¬ (20 + rest.length < 12) := by omega
  have h3 : ¬ (20 + rest.length < 16) := by omega
  have h4 : ¬ (20 + rest.length < 20) := by omega
  simp only [comux_cinfo_read_buffer, hlen, hdrop4, hdrop12, hdrop16, hhead,
    if_neg h1, if_neg h2, if_neg h3, if_neg h4]
  rw [bytes_to_u64_append _ _ (u64_to_bytes_length _),
      bytes_to_u32_append _ _ (u32_to_bytes_length _),
      bytes_to_u32_append _ _ (u32_to_bytes_length _),
      bytes_to_u64_u64_to_bytes _ hlen64,
      bytes_to_u32_u32_to_bytes _ hsched, bytes_to_u32_u32_to_bytes _ hflags]

theorem comux_manifest_read_buffer_loop_eq :
    ∀ (cs : List comux_cinfo_t),
    (∀ c ∈ cs, comux_cinfo_wf c) →
    comux_manifest_read_buffer_loop cs.length (comux_chunks_bytes cs) =
      (cs, comux_chunks_size cs, .OK)
  | [], _ => by simp [comux_manifest_read_buffer_loop, comux_chunks_bytes, comux_chunks_size]
  | c :: cs, hwf => by
    obtain ⟨hid, hsched, hflags, hlen, hmax, hbytes⟩ := hwf c (by simp)
    have hlen64 : c.len < 2 ^ 64 := by
      have hbig : COMUX_CHUNK_DATA_MAXLEN < 2 ^ 64 := by decide
      omega
    have htail : ∀ x ∈ cs, comux_cinfo_wf x := fun x hx => hwf x (by simp [hx])
    have htake : c.data.take c.len = c.data := by
      rw [hlen]; exact List.take_length _
    have hdrop : (comux_cinfo_record_bytes c ++ (c.data ++ comux_chunks_bytes cs)).drop 20 =
        c.data ++ comux_chunks_bytes cs :=
      List.drop_left' (comux_cinfo_record_bytes_length c)
    have hcap0 : ¬ (c.len > COMUX_CHUNK_DATA_MAXLEN) := Nat.not_lt.mpr hmax
    have hcap : min c.len (c.data ++ comux_chunks_bytes cs).length = c.len := by
      simp [hlen]
    have hload : comux_cinfo_data_read_buffer { c with data := [] }
        (c.data ++ comux_chunks_bytes cs) = (c, c.len) := by
      simp only [comux_cinfo_data_read_buffer, if_neg hcap0, hcap]
      rw [List.take_left' hlen.symm]
    have hdrop2 : (comux_cinfo_record_bytes c ++
        (c.data ++ comux_chunks_bytes cs)).drop (20 + c.len) = comux_chunks_bytes cs := by
      rw [← List.drop_drop c.len 20, hdrop, List.drop_left' hlen.symm]
    rw [List.length_cons, comux_chunks_bytes_cons, htake]
    rw [comux_manifest_read_buffer_loop,
      comux_cinfo_read_buffer_eq c _ hid hsched hflags hlen64]
    simp only [hdrop, hload, if_neg (Nat.lt_irrefl c.len), hdrop2,
      comux_manifest_read_buffer_loop_eq cs htail, comux_chunks_size_cons]

/-- C1: for every well-formed manifest (correct magic, `num_chunks` equal to
the number of chunk records, each chunk with `len` equal to its payload length
and at most 524288, all fields within their C integer types), decoding the
byte string produced by encoding the manifest yields exactly the same
manifest: same header fields and the same chunks, in order, with the same
conn_id, len, sched, flags and payload bytes. -/
theorem comux_manifest_roundtrip (m : comux_manifest_t) (max_len : Nat)
    (hwf : comux_manifest_wf m) (hroom : comux_manifest_size m ≤ max_len) :
    ∃ bytes, comux_manifest_write_buffer m max_len = some bytes ∧
      comux_manifest_read_buffer bytes = .ok (m, comux_manifest_size m) := by
  obtain ⟨hm, hv, hc, hk, hcount, hchunks⟩ := hwf
  refine ⟨comux_header_bytes m.header ++ comux_chunks_bytes m.cinfo_list,
    comux_manifest_write_buffer_eq m max_len hroom, ?_⟩
  have hml : m.header.magic.length = 8 := by rw [hm]; rfl
  have hdrop : (comux_header_bytes m.header ++ comux_chunks_bytes m.cinfo_list).drop 20 =
      comux_chunks_bytes m.cinfo_list :=
    List.drop_left' (comux_header_bytes_length m.header hml)
  rw [comux_manifest_read_buffer,
    comux_header_read_buffer_eq m.header _ hm hv hc hk]
  simp only [hdrop, hcount, comux_manifest_read_buffer_loop_eq m.cinfo_list hchunks]
  rfl

/-- Concrete manifest for witnesses: one connection, one chunk, payload
"hello" (the Sc1 scenario of the specification, 45 encoded bytes). -/
def comux_manifest_sc1 : comux_manifest_t :=
  { header := { magic := COMUX_MAGIC, version := 0, num_conns := 1, num_chunks := 1 },
    cinfo_list := [{ id := 0, len := 5, sched := 0, flags := 0,
                     data := [104, 101, 108, 108, 111] }] }

/-- Witness for C1: the roundtrip theorem applied to the concrete Sc1
manifest with a 45-byte output buffer. -/
theorem comux_manifest_roundtrip_witness :
    comux_manifest_wf comux_manifest_sc1 ∧
    comux_manifest_size comux_manifest_sc1 ≤ 45 ∧
    ∃ bytes, comux_manifest_write_buffer comux_manifest_sc1 45 = some bytes ∧
      comux_manifest_read_buffer bytes =
        .ok (comux_manifest_sc1, comux_manifest_size comux_manifest_sc1) :=
  ⟨by decide, by decide,
   comux_manifest_roundtrip comux_manifest_sc1 45 (by decide) (by decide)⟩


/-! ## Length clamping and the CONN_LEN_MISMATCH return value (buffer mode) -/

theorem comux_header_read_buffer_no_mismatch (buff : List Nat) :
    comux_header_read_buffer buff ≠ .error .CONN_LEN_MISMATCH := by
  unfold comux_header_read_buffer
  split_ifs <;> simp

theorem comux_manifest_read_buffer_returns_ok (input : List Nat) :
    comux_manifest_read_buffer input ≠ .error .CONN_LEN_MISMATCH := by
  rw [comux_manifest_read_buffer]
  cases hh : comux_header_read_buffer input with
  | error e =>
    intro hcontra
    simp only [Except.error.injEq] at hcontra
    exact comux_header_read_buffer_no_mismatch input (by rw [hh, hcontra])
  | ok p => simp

/-- C2 (amended): when a chunk record parses and its payload loads short, the
number of bytes loaded is `min (min declared_len 524288) bytes_available`, the
in-memory chunk len is updated to the loaded count, and the per-chunk loop of
comux_manifest_read_buffer records CONN_LEN_MISMATCH internally and drops the
chunk — but comux_manifest_read_buffer itself never returns
CONN_LEN_MISMATCH to its caller: after a successful header parse it returns
COMUX_PARSE_OK unconditionally (comux.c ends with `return COMUX_PARSE_OK`). -/
theorem comux_manifest_read_buffer_len_mismatch_internal
    (c : comux_cinfo_t) (buff input : List Nat) (n rcount : Nat)
    (hread : comux_cinfo_read_buffer buff = .ok (c, rcount))
    (hshort : (comux_cinfo_data_read_buffer c (buff.drop rcount)).2 < c.len) :
    (comux_cinfo_data_read_buffer c (buff.drop rcount)).2 =
      min (min c.len COMUX_CHUNK_DATA_MAXLEN) (buff.drop rcount).length ∧
    (comux_cinfo_data_read_buffer c (buff.drop rcount)).1.len =
      (comux_cinfo_data_read_buffer c (buff.drop rcount)).2 ∧
    comux_manifest_read_buffer_loop (n + 1) buff = ([], rcount, .CONN_LEN_MISMATCH) ∧
    comux_manifest_read_buffer input ≠ .error .CONN_LEN_MISMATCH := by
  refine ⟨?_, ?_, ?_, comux_manifest_read_buffer_returns_ok input⟩
  · simp only [comux_cinfo_data_read_buffer]
    split_ifs with hgt
    · simp [Nat.min_def, Nat.le_of_lt hgt]
    · have : min c.len COMUX_CHUNK_DATA_MAXLEN = c.len := by omega
      rw [this]
  · simp only [comux_cinfo_data_read_buffer]
  · rw [comux_manifest_read_buffer_loop, hread]
    simp only []
    rw [if_pos hshort]

/-- Concrete chunk used in the C2 witness and counterexample: a record that
declares a 5-byte payload. -/
def comux_c2_cinfo : comux_cinfo_t :=
  { id := 0, len := 5, sched := 0, flags := 0, data := [] }

/-- Chunk-section bytes for C2: a 20-byte record declaring 5 payload bytes,
followed by only 2 payload bytes. -/
def comux_c2_chunk_bytes : List Nat :=
  comux_cinfo_record_bytes comux_c2_cinfo ++ [65, 66]

/-- Full input for C2: a valid header declaring one chunk, then the truncated
chunk section. -/
def comux_c2_input : List Nat :=
  comux_header_bytes
    { magic := COMUX_MAGIC, version := 0, num_conns := 1, num_chunks := 1 } ++
  comux_c2_chunk_bytes

/-- Witness for C2: the amended theorem applied to the truncated one-chunk
input, with both hypotheses discharged by evaluation. -/
theorem comux_manifest_read_buffer_len_mismatch_internal_witness :
    comux_cinfo_read_buffer comux_c2_chunk_bytes = .ok (comux_c2_cinfo, 20) ∧
    (comux_cinfo_data_read_buffer comux_c2_cinfo
        (comux_c2_chunk_bytes.drop 20)).2 < comux_c2_cinfo.len ∧
    ((comux_cinfo_data_read_buffer comux_c2_cinfo (comux_c2_chunk_bytes.drop 20)).2 =
      min (min comux_c2_cinfo.len COMUX_CHUNK_DATA_MAXLEN)
        (comux_c2_chunk_bytes.drop 20).length ∧
    (comux_cinfo_data_read_buffer comux_c2_cinfo (comux_c2_chunk_bytes.drop 20)).1.len =
      (comux_cinfo_data_read_buffer comux_c2_cinfo (comux_c2_chunk_bytes.drop 20)).2 ∧
    comux_manifest_read_buffer_loop 1 comux_c2_chunk_bytes =
      ([], 20, .CONN_LEN_MISMATCH) ∧
    comux_manifest_read_buffer comux_c2_input ≠ .error .CONN_LEN_MISMATCH) :=
  ⟨by decide, by decide,
   comux_manifest_read_buffer_len_mismatch_internal comux_c2_cinfo
     comux_c2_chunk_bytes comux_c2_input 0 20 (by decide) (by decide)⟩

/-- Counterexample for C2 as stated: on the truncated one-chunk input the
payload loads 2 bytes against a declared length of 5, yet
comux_manifest_read_buffer returns COMUX_PARSE_OK (with the chunk dropped and
read_len = 40, the header plus the already-counted chunk record), not
CONN_LEN_MISMATCH — refuting "the decode returns CONN_LEN_MISMATCH if and
only if the number loaded is less than the declared len". -/
theorem comux_manifest_read_buffer_mismatch_counterexample :
    (comux_cinfo_data_read_buffer comux_c2_cinfo
        (comux_c2_chunk_bytes.drop 20)).2 < comux_c2_cinfo.len ∧
    comux_manifest_read_buffer comux_c2_input =
      .ok ({ header := { magic := COMUX_MAGIC, version := 0,
                         num_conns := 1, num_chunks := 1 },
             cinfo_list := [] }, 40) := by
  constructor
  · decide
  · decide

/-! ## The mutator validators (mutator.c) -/

/-- MAX_CONNECTIONS from mutator.h (1 << 12). -/
def MAX_CONNECTIONS : Nat := 4096

/-- MAX_CHUNKS from mutator.h (1 << 13). -/
def MAX_CHUNKS : Nat := 8192

/-- COMUX_CHUNK_FLAGS_AWAIT_RESPONSE from comux.h. -/
def COMUX_CHUNK_FLAGS_AWAIT_RESPONSE : Nat := 0x1

/-- COMUX_CHUNK_FLAGS_NO_SHUTDOWN from comux.h. -/
def COMUX_CHUNK_FLAGS_NO_SHUTDOWN : Nat := 0x2

/-- COMUX_CHUNK_FLAGS_ALL from comux.h. -/
def COMUX_CHUNK_FLAGS_ALL : Nat := 0x3

/-- __gurthang_mut_check_comux_header from mutator.c: returns an error message
on a bad header and NULL (here: none) on success.  The checks run in source
order: too many connections, too many chunks, zero connections, zero chunks. -/
def __gurthang_mut_check_comux_header (header : comux_header_t) : Option String :=
  if header.num_conns > MAX_CONNECTIONS then some "too many connections specified"
  else if header.num_chunks > MAX_CHUNKS then some "too many chunks specified"
  else if header.num_conns = 0 then
    some "zero connections are specified by the comux header"
  else if header.num_chunks = 0 then
    some "zero chunks are specified by the comux header"
  else none

/-- __gurthang_mut_check_comux_cinfo from mutator.c: rejects an out-of-range
connection ID, then ANDs the flags with `~((uint32_t) COMUX_CHUNK_FLAGS_ALL)`
(the 32-bit value 4294967292 = 0xFFFFFFFC) to detect unsupported flag bits. -/
def __gurthang_mut_check_comux_cinfo (header : comux_header_t)
    (cinfo : comux_cinfo_t) : Option String :=
  if cinfo.id ≥ header.num_conns then some "out-of-bounds connection ID"
  else if cinfo.flags &&& 4294967292 ≠ 0 then some "unsupported flag bits are enabled"
  else none

theorem nat_and_mask_hi_eq_zero_iff (x : Nat) (hx : x < 2 ^ 32) :
    x &&& 4294967292 = 0 ↔ x < 4 := by
  constructor
  · intro hand
    by_contra hge
    push_neg at hge
    have hq : x / 4 ≠ 0 := by omega
    obtain ⟨i, hbit⟩ := Nat.ne_zero_implies_bit_true hq
    have hshift : x >>> 2 = x / 4 := by
      rw [Nat.shiftRight_eq_div_pow]
    have h2 : (x >>> 2).testBit i = x.testBit (2 + i) := Nat.testBit_shiftRight x
    have hxbit : x.testBit (2 + i) = true := by
      rw [← h2, hshift]
      exact hbit
    have hlt32 : 2 + i < 32 := by
      by_contra hge32
      push_neg at hge32
      have hx2 : x < 2 ^ (2 + i) := lt_of_lt_of_le hx (Nat.pow_le_pow_right (by omega) hge32)
      rw [Nat.testBit_lt_two_pow hx2] at hxbit
      exact Bool.false_ne_true hxbit
    have hmask : (4294967292 : Nat) = 2 ^ 2 * (2 ^ 30 - 1) := by decide
    have hmbit : (4294967292 : Nat).testBit (2 + i) = true := by
      rw [hmask, Nat.testBit_mul_pow_two, Nat.testBit_two_pow_sub_one]
      simp only [Nat.add_sub_cancel_left]
      have : 2 ≤ 2 + i := by omega
      have : i < 30 := by omega
      simp_all
    have : (x &&& 4294967292).testBit (2 + i) = true := by
      rw [Nat.testBit_and, hxbit, hmbit]
      rfl
    rw [hand] at this
    simp [Nat.zero_testBit] at this
  · intro hlt
    interval_cases x <;> decide

/-- C6: the header validator fails exactly when `num_conns` is zero or above
4096 or `num_chunks` is zero or above 8192; the chunk validator fails exactly
when `conn_id` is at least `num_conns` or the (uint32_t) flags value has a bit
set outside the mask 0x3 — for a uint32_t that is exactly the condition
`4 ≤ flags`.  Otherwise each validator returns success. -/
theorem gurthang_mut_validators_iff (h : comux_header_t) (c : comux_cinfo_t)
    (hflags : c.flags < 2 ^ 32) :
    ((__gurthang_mut_check_comux_header h).isSome ↔
      (h.num_conns = 0 ∨ h.num_conns > 4096 ∨ h.num_chunks = 0 ∨ h.num_chunks > 8192)) ∧
    ((__gurthang_mut_check_comux_cinfo h c).isSome ↔
      (c.id ≥ h.num_conns ∨ 4 ≤ c.flags)) := by
  constructor
  · unfold __gurthang_mut_check_comux_header MAX_CONNECTIONS MAX_CHUNKS
    split_ifs with h1 h2 h3 h4 <;> simp <;> omega
  · unfold __gurthang_mut_check_comux_cinfo
    split_ifs with h1 h2 <;> simp
    · exact Or.inl h1
    · right
      by_contra hlt
      push_neg at hlt
      exact h2 ((nat_and_mask_hi_eq_zero_iff c.flags hflags).mpr hlt)
    · push_neg at h2
      constructor
      · omega
      · have := (nat_and_mask_hi_eq_zero_iff c.flags hflags).mp h2
        omega

/-- Witness for C6: the validators evaluated on a concrete in-range header
and a chunk with an unsupported flag bit (0x4). -/
theorem gurthang_mut_validators_iff_witness :
    ({ id := 0, len := 0, sched := 0, flags := 4, data := [] } :
        comux_cinfo_t).flags < 2 ^ 32 ∧
    (((__gurthang_mut_check_comux_header
        { magic := COMUX_MAGIC, version := 0, num_conns := 2, num_chunks := 3 }).isSome ↔
      ((2 : Nat) = 0 ∨ (2 : Nat) > 4096 ∨ (3 : Nat) = 0 ∨ (3 : Nat) > 8192)) ∧
    ((__gurthang_mut_check_comux_cinfo
        { magic := COMUX_MAGIC, version := 0, num_conns := 2, num_chunks := 3 }
        { id := 0, len := 0, sched := 0, flags := 4, data := [] }).isSome ↔
      ((0 : Nat) ≥ 2 ∨ (4 : Nat) ≤ 4))) :=
  ⟨by decide,
   gurthang_mut_validators_iff
     { magic := COMUX_MAGIC, version := 0, num_conns := 2, num_chunks := 3 }
     { id := 0, len := 0, sched := 0, flags := 4, data := [] } (by decide)⟩


/-! ## Stream-mode reading: file descriptors modelled as remaining byte lists -/

/-- read_check from utils.c on a regular file: a read returns
min(count, remaining) bytes; the pair is (bytes read, remaining stream). -/
def read_check (src : List Nat) (count : Nat) : List Nat × List Nat :=
  (src.take count, src.drop count)

/-- comux_header_read from comux.c: four sequential reads (8 magic bytes, then
three uint32_t fields); a zero-byte read yields EOF, a short read yields the
per-field error code, and a wrong magic yields BAD_MAGIC. -/
def comux_header_read (src : List Nat) :
    Except comux_parse_result_t (comux_header_t × List Nat) :=
  let magic := (read_check src 8).1
  let src1 := (read_check src 8).2
  if magic.length = 0 then .error .EOF
  else if magic.length < 8 then .error .BAD_MAGIC
  else if magic ≠ COMUX_MAGIC then .error .BAD_MAGIC
  else
    let vb := (read_check src1 4).1
    let src2 := (read_check src1 4).2
    if vb.length = 0 then .error .EOF
    else if vb.length < 4 then .error .BAD_VERSION
    else
      let cb := (read_check src2 4).1
      let src3 := (read_check src2 4).2
      if cb.length = 0 then .error .EOF
      else if cb.length < 4 then .error .BAD_NUM_CONNS
      else
        let kb := (read_check src3 4).1
        let src4 := (read_check src3 4).2
        if kb.length = 0 then .error .EOF
        else if kb.length < 4 then .error .BAD_NUM_CHUNKS
        else .ok ({ magic := magic, version := bytes_to_u32 vb,
                    num_conns := bytes_to_u32 cb,
                    num_chunks := bytes_to_u32 kb }, src4)

/-- comux_cinfo_read from comux.c: four sequential reads (id u32, len u64,
sched u32, flags u32) with EOF and per-field error codes.  The offset capture
(lseek on the current position) is tracked separately by the orchestrator
model and does not affect parsing. -/
def comux_cinfo_read (src : List Nat) :
    Except comux_parse_result_t (comux_cinfo_t × List Nat) :=
  let idb := (read_check src 4).1
  let src1 := (read_check src 4).2
  if idb.length = 0 then .error .EOF
  else if idb.length < 4 then .error .BAD_CONN_ID
  else
    let lenb := (read_check src1 8).1
    let src2 := (read_check src1 8).2
    if lenb.length = 0 then .error .EOF
    else if lenb.length < 8 then .error .BAD_CONN_LEN
    else
      let schedb := (read_check src2 4).1
      let src3 := (read_check src2 4).2
      if schedb.length = 0 then .error .EOF
      else if schedb.length < 4 then .error .BAD_CONN_SCHED
      else
        let flagsb := (read_check src3 4).1
        let src4 := (read_check src3 4).2
        if flagsb.length = 0 then .error .EOF
        else if flagsb.length < 4 then .error .BAD_CONN_FLAGS
        else .ok ({ id := bytes_to_u32 idb, len := bytes_to_u64 lenb,
                    sched := bytes_to_u32 schedb, flags := bytes_to_u32 flagsb,
                    data := [] }, src4)

/-- The read loop of comux_cinfo_data_read from comux.c, with explicit fuel:
each iteration reads min(cap - total, buff_size) bytes from the stream and
appends them while the read returned bytes and the total stays below the cap.
Returns (loaded bytes, total count, remaining stream). -/
def comux_cinfo_data_read_loop (fuel : Nat) (cap buff_size : Nat)
    (src : List Nat) (total : Nat) (acc : List Nat) :
    List Nat × Nat × List Nat :=
  match fuel with
  | 0 => (acc, total, src)
  | fuel + 1 =>
    let chunk := (read_check src (min (cap - total) buff_size)).1
    let src1 := (read_check src (min (cap - total) buff_size)).2
    if 0 < chunk.length ∧ total < cap then
      comux_cinfo_data_read_loop fuel cap buff_size src1
        (total + chunk.length) (acc ++ chunk)
    else (acc, total, src1)

/-- comux_cinfo_data_read from comux.c: the cap is the declared length clamped
to COMUX_CHUNK_DATA_MAXLEN; reads run in pieces of min(cap, 2048) bytes; the
loaded bytes become the data buffer and `len` is updated to the loaded
count.  The fuel cap+1 covers every loop iteration (each body iteration loads
at least one byte). -/
def comux_cinfo_data_read (cinfo : comux_cinfo_t) (src : List Nat) :
    comux_cinfo_t × Nat × List Nat :=
  let cap := if cinfo.len > COMUX_CHUNK_DATA_MAXLEN
             then COMUX_CHUNK_DATA_MAXLEN else cinfo.len
  let buff_size := if cap > 2048 then 2048 else cap
  let r := comux_cinfo_data_read_loop (cap + 1) cap buff_size src 0 []
  ({ cinfo with data := r.1, len := r.2.1 }, r.2.1, r.2.2)

theorem comux_cinfo_data_read_loop_spec :
    ∀ (fuel cap buff_size : Nat) (src : List Nat) (total : Nat) (acc : List Nat),
    total ≤ cap → cap - total < fuel → (0 < buff_size ∨ cap ≤ total) →
    comux_cinfo_data_read_loop fuel cap buff_size src total acc =
      (acc ++ src.take (min (cap - total) src.length),
       total + min (cap - total) src.length,
       src.drop (min (cap - total) src.length))
  | 0, cap, buff_size, src, total, acc, htot, hfuel, hbs => by omega
  | fuel + 1, cap, buff_size, src, total, acc, htot, hfuel, hbs => by
    rw [comux_cinfo_data_read_loop]
    simp only [read_check, List.length_take]
    by_cases hstop : cap ≤ total
    · have hcz : cap - total = 0 := by omega
      have : ¬ (0 < min (min (cap - total) buff_size) src.length ∧ total < cap) := by
        omega
      rw [if_neg this]
      simp [hcz]
    · push_neg at hstop
      have hbs0 : 0 < buff_size := hbs.resolve_right (by omega)
      by_cases hsrc : src.length = 0
      · have hsrc_nil : src = [] := List.eq_nil_of_length_eq_zero hsrc
        have : ¬ (0 < min (min (cap - total) buff_size) src.length ∧ total < cap) := by
          omega
        rw [if_neg this]
        simp [hsrc_nil]
      · have hreq : 0 < min (cap - total) buff_size := by omega
        have hrun : 0 < min (min (cap - total) buff_size) src.length ∧ total < cap := by
          omega
        rw [if_pos hrun]
        have ih := comux_cinfo_data_read_loop_spec fuel cap buff_size
          (src.drop (min (cap - total) buff_size))
          (total + min (min (cap - total) buff_size) src.length)
          (acc ++ src.take (min (cap - total) buff_size))
          (by omega) (by omega) (by omega)
        rw [ih]
        by_cases hql : min (cap - total) buff_size ≤ src.length
        · have hm : min (min (cap - total) buff_size) src.length =
              min (cap - total) buff_size := by omega
          have hrem : (src.drop (min (cap - total) buff_size)).length =
              src.length - min (cap - total) buff_size := by simp
          rw [hm]
          have hK : min (cap - (total + min (cap - total) buff_size))
              (src.drop (min (cap - total) buff_size)).length =
              min (cap - total) src.length - min (cap - total) buff_size := by
            rw [hrem]; omega
          rw [hK]
          refine Prod.ext ?_ (Prod.ext ?_ ?_)
          · show acc ++ src.take (min (cap - total) buff_size) ++
              (src.drop (min (cap - total) buff_size)).take
                (min (cap - total) src.length - min (cap - total) buff_size) =
              acc ++ src.take (min (cap - total) src.length)
            rw [List.append_assoc,
              ← List.take_add src (min (cap - total) buff_size)]
            congr 2
            omega
          · show total + min (cap - total) buff_size +
              (min (cap - total) src.length - min (cap - total) buff_size) =
              total + min (cap - total) src.length
            omega
          · show (src.drop (min (cap - total) buff_size)).drop
                (min (cap - total) src.length - min (cap - total) buff_size) =
              src.drop (min (cap - total) src.length)
            rw [List.drop_drop]
            congr 1
            omega
        · push_neg at hql
          have htk : src.take (min (cap - total) buff_size) = src :=
            List.take_of_length_le (by omega)
          have hdr : src.drop (min (cap - total) buff_size) = [] :=
            List.drop_eq_nil_of_le (by omega)
          have hm : min (min (cap - total) buff_size) src.length = src.length := by
            omega
          have hm2 : min (cap - total) src.length = src.length := by omega
          rw [htk, hdr, hm, hm2]
          simp

theorem comux_cinfo_data_read_spec (cinfo : comux_cinfo_t) (src : List Nat) :
    comux_cinfo_data_read cinfo src =
      ({ cinfo with
          data := src.take (min (min cinfo.len COMUX_CHUNK_DATA_MAXLEN) src.length),
          len := min (min cinfo.len COMUX_CHUNK_DATA_MAXLEN) src.length },
       min (min cinfo.len COMUX_CHUNK_DATA_MAXLEN) src.length,
       src.drop (min (min cinfo.len COMUX_CHUNK_DATA_MAXLEN) src.length)) := by
  rw [comux_cinfo_data_read]
  have hcap : (if cinfo.len > COMUX_CHUNK_DATA_MAXLEN
      then COMUX_CHUNK_DATA_MAXLEN else cinfo.len) =
      min cinfo.len COMUX_CHUNK_DATA_MAXLEN := by
    split_ifs <;> omega
  rw [hcap]
  rw [comux_cinfo_data_read_loop_spec (min cinfo.len COMUX_CHUNK_DATA_MAXLEN + 1)
    (min cinfo.len COMUX_CHUNK_DATA_MAXLEN) _ src 0 []
    (by omega) (by omega) (by split_ifs <;> omega)]
  simp

/-- The chunk loop of comux_manifest_read from comux.c, with explicit fuel.
Each iteration allocates a fresh chunk, reads its record header (EOF or a
parse error frees it, stores the error in `result`, and ends the loop), reads
its data, and flags CONN_LEN_MISMATCH when the loaded count is short;
otherwise the chunk is pushed onto the manifest list.  Note the loop is NOT
bounded by the declared num_chunks: it runs until the stream gives an error
or EOF. -/
def comux_manifest_read_loop (fuel : Nat) (src : List Nat) :
    List comux_cinfo_t × comux_parse_result_t :=
  match fuel with
  | 0 => ([], .OK)
  | fuel + 1 =>
    match comux_cinfo_read src with
    | .error e => ([], e)
    | .ok (cinfo, src1) =>
      let r := comux_cinfo_data_read cinfo src1
      if r.2.1 < cinfo.len then ([], .CONN_LEN_MISMATCH)
      else
        let rest := comux_manifest_read_loop fuel r.2.2
        (r.1 :: rest.1, rest.2)

/-- comux_manifest_read from comux.c: reads the header (propagating its error
codes), then runs the chunk loop until a non-OK result; a final result of EOF
is translated to COMUX_PARSE_OK, any other error is returned.  The fuel
length+1 exceeds the possible number of loop iterations (each successful
iteration consumes at least 20 bytes); the fuel-exhaustion branch (result OK)
is unreachable and also maps to success, mirroring the C ternary
`result == COMUX_PARSE_EOF ? COMUX_PARSE_OK : result`. -/
def comux_manifest_read (src : List Nat) :
    Except comux_parse_result_t comux_manifest_t :=
  match comux_header_read src with
  | .error e => .error e
  | .ok (header, src1) =>
    let r := comux_manifest_read_loop (src1.length + 1) src1
    if r.2 = .EOF then .ok { header := header, cinfo_list := r.1 }
    else if r.2 = .OK then .ok { header := header, cinfo_list := r.1 }
    else .error r.2


theorem comux_header_read_eq (h : comux_header_t) (rest : List Nat)
    (hm : h.magic = COMUX_MAGIC) (hv : h.version < 2 ^ 32)
    (hc : h.num_conns < 2 ^ 32) (hk : h.num_chunks < 2 ^ 32) :
    comux_header_read (comux_header_bytes h ++ rest) = .ok (h, rest) := by
  have hml : h.magic.length = 8 := by rw [hm]; rfl
  rw [comux_header_read]
  simp only [read_check]
  rw [comux_header_bytes, List.append_assoc, List.append_assoc, List.append_assoc,
    List.take_left' hml, List.drop_left' hml,
    List.take_left' (u32_to_bytes_length h.version),
    List.drop_left' (u32_to_bytes_length h.version),
    List.take_left' (u32_to_bytes_length h.num_conns),
    List.drop_left' (u32_to_bytes_length h.num_conns),
    List.take_left' (u32_to_bytes_length h.num_chunks),
    List.drop_left' (u32_to_bytes_length h.num_chunks)]
  rw [bytes_to_u32_u32_to_bytes _ hv, bytes_to_u32_u32_to_bytes _ hc,
    bytes_to_u32_u32_to_bytes _ hk]
  simp [hml, hm, u32_to_bytes_length]
  rw [if_neg (by decide : ¬ ((COMUX_MAGIC : List Nat) = [])),
    if_neg (by decide : ¬ ((COMUX_MAGIC : List Nat).length < 8)), ← hm]

theorem comux_cinfo_read_eq (c : comux_cinfo_t) (rest : List Nat)
    (hid : c.id < 2 ^ 32) (hsched : c.sched < 2 ^ 32) (hflags : c.flags < 2 ^ 32)
    (hlen64 : c.len < 2 ^ 64) :
    comux_cinfo_read (comux_cinfo_record_bytes c ++ rest) =
      .ok ({ c with data := [] }, rest) := by
  rw [comux_cinfo_read]
  simp only [read_check]
  rw [comux_cinfo_record_bytes, List.append_assoc, List.append_assoc, List.append_assoc,
    List.take_left' (u32_to_bytes_length c.id),
    List.drop_left' (u32_to_bytes_length c.id),
    List.take_left' (u64_to_bytes_length c.len),
    List.drop_left' (u64_to_bytes_length c.len),
    List.take_left' (u32_to_bytes_length c.sched),
    List.drop_left' (u32_to_bytes_length c.sched),
    List.take_left' (u32_to_bytes_length c.flags),
    List.drop_left' (u32_to_bytes_length c.flags)]
  rw [bytes_to_u32_u32_to_bytes _ hid, bytes_to_u64_u64_to_bytes _ hlen64,
    bytes_to_u32_u32_to_bytes _ hsched, bytes_to_u32_u32_to_bytes _ hflags]
  simp [u32_to_bytes, u64_to_bytes]

theorem comux_chunks_bytes_length_ge :
    ∀ (cs : List comux_cinfo_t), cs.length ≤ (comux_chunks_bytes cs).length
  | [] => by simp [comux_chunks_bytes]
  | c :: cs => by
    rw [comux_chunks_bytes_cons]
    have ih := comux_chunks_bytes_length_ge cs
    have hrec : (comux_cinfo_record_bytes c).length = 20 :=
      comux_cinfo_record_bytes_length c
    simp only [List.length_append, List.length_cons, hrec]
    omega

theorem comux_manifest_read_loop_eq :
    ∀ (cs : List comux_cinfo_t) (fuel : Nat),
    (∀ c ∈ cs, comux_cinfo_wf c) → cs.length < fuel →
    comux_manifest_read_loop fuel (comux_chunks_bytes cs) = (cs, .EOF)
  | [], fuel, _, hfuel => by
    match fuel, hfuel with
    | fuel + 1, _ =>
      rw [comux_manifest_read_loop]
      have hnil : comux_chunks_bytes [] = [] := by simp [comux_chunks_bytes]
      rw [hnil]
      rfl
  | c :: cs, fuel, hwf, hfuel => by
    match fuel, hfuel with
    | fuel + 1, hfuel =>
      obtain ⟨hid, hsched, hflags, hlen, hmax, hbytes⟩ := hwf c (by simp)
      have hlen64 : c.len < 2 ^ 64 := by
        have hbig : COMUX_CHUNK_DATA_MAXLEN < 2 ^ 64 := by decide
        omega
      have htail : ∀ x ∈ cs, comux_cinfo_wf x := fun x hx => hwf x (by simp [hx])
      have htake : c.data.take c.len = c.data := by
        rw [hlen]; exact List.take_length _
      rw [comux_manifest_read_loop, comux_chunks_bytes_cons, htake,
        comux_cinfo_read_eq c _ hid hsched hflags hlen64]
      simp only []
      have hcap : min (min c.len COMUX_CHUNK_DATA_MAXLEN)
          (c.data ++ comux_chunks_bytes cs).length = c.len := by
        simp only [List.length_append, ← hlen]
        omega
      rw [comux_cinfo_data_read_spec]
      simp only [hcap]
      rw [List.take_left' hlen.symm, List.drop_left' hlen.symm,
        if_neg (Nat.lt_irrefl c.len)]
      rw [comux_manifest_read_loop_eq cs fuel htail (by simpa using Nat.lt_of_succ_lt_succ hfuel)]

/-- C8: for every input byte stream consisting of a parseable header followed
by any number of complete chunk records that ends cleanly at a chunk-record
boundary, the streaming decoder comux_manifest_read returns success with
exactly the chunks read; the declared `num_chunks` in the header is completely
unconstrained — chunk-count agreement is not enforced by the decoder (its
chunk loop runs to end-of-stream, not to num_chunks). -/
theorem comux_manifest_read_clean_truncation (h : comux_header_t)
    (cs : List comux_cinfo_t)
    (hm : h.magic = COMUX_MAGIC) (hv : h.version < 2 ^ 32)
    (hc : h.num_conns < 2 ^ 32) (hk : h.num_chunks < 2 ^ 32)
    (hwf : ∀ c ∈ cs, comux_cinfo_wf c) :
    comux_manifest_read (comux_header_bytes h ++ comux_chunks_bytes cs) =
      .ok { header := h, cinfo_list := cs } := by
  rw [comux_manifest_read, comux_header_read_eq h _ hm hv hc hk]
  simp only []
  have hfuel : cs.length < (comux_chunks_bytes cs).length + 1 :=
    Nat.lt_succ_of_le (comux_chunks_bytes_length_ge cs)
  rw [comux_manifest_read_loop_eq cs _ hwf hfuel]
  rfl

/-- Header used in the C8 witness: it declares 5 chunks while the stream holds
only one complete chunk record. -/
def comux_c8_header : comux_header_t :=
  { magic := COMUX_MAGIC, version := 0, num_conns := 1, num_chunks := 5 }

/-- The single chunk present in the C8 witness stream. -/
def comux_c8_chunk : comux_cinfo_t :=
  { id := 0, len := 1, sched := 0, flags := 0, data := [65] }

/-- Witness for C8: a stream declaring 5 chunks but ending cleanly after one
chunk record still decodes successfully, with exactly that one chunk. -/
theorem comux_manifest_read_clean_truncation_witness :
    comux_c8_header.magic = COMUX_MAGIC ∧
    (∀ c ∈ [comux_c8_chunk], comux_cinfo_wf c) ∧
    comux_c8_header.num_chunks = 5 ∧
    comux_manifest_read
        (comux_header_bytes comux_c8_header ++ comux_chunks_bytes [comux_c8_chunk]) =
      .ok { header := comux_c8_header, cinfo_list := [comux_c8_chunk] } :=
  ⟨by decide, by decide, by decide,
   comux_manifest_read_clean_truncation comux_c8_header [comux_c8_chunk]
     (by decide) (by decide) (by decide) (by decide) (by decide)⟩


/-! ## The chunk worker (preload.c) -/

/-- FATAL_EXIT_CODE from utils.h: the exit code used by fatality() and
fatality_errno(). -/
def FATAL_EXIT_CODE : Nat := 24060

/-- ctable_status_t from preload.c. -/
inductive ctable_status_t where
  | DEAD
  | ALIVE
  | CLOSED_REMOTE
deriving DecidableEq, Repr

/-- comux_cinfo_data_offset from comux.h: the chunk record is 20 bytes, so the
data segment starts 20 bytes past the recorded offset. -/
def comux_cinfo_data_offset (offset : Nat) : Nat := offset + 20

/-- __gurthang_lib_chunk_load_data from preload.c: seek stdin to the recorded
offset plus 20 and read the chunk data there with comux_cinfo_data_read.
Returns the updated chunk and the loaded byte count. -/
def __gurthang_lib_chunk_load_data (cinfo : comux_cinfo_t) (offset : Nat)
    (stdin_bytes : List Nat) : comux_cinfo_t × Nat :=
  let src := stdin_bytes.drop (comux_cinfo_data_offset offset)
  let r := comux_cinfo_data_read cinfo src
  (r.1, r.2.1)

/-- The send loop of __gurthang_lib_chunk_send_data from preload.c under the
full-accept model of a blocking send: each send call accepts the entire
requested slice and returns its size, and a zero-size send returns 0, ending
the loop.  Exactly as in the source, the slice sent starts at
`dptr + wcount`, where `wcount` is the return value of the PREVIOUS send
call, while the slice size is computed from the running `total_wcount`. -/
def __gurthang_lib_chunk_send_data_loop (fuel : Nat) (dptr : List Nat)
    (len interval wcount total : Nat) (sent : List Nat) : List Nat :=
  match fuel with
  | 0 => sent
  | fuel + 1 =>
    if min (len - total) interval = 0 then sent
    else
      __gurthang_lib_chunk_send_data_loop fuel dptr len interval
        (min (len - total) interval)
        (total + min (len - total) interval)
        (sent ++ (dptr.drop wcount).take (min (len - total) interval))

/-- __gurthang_lib_chunk_send_data from preload.c: sends the chunk data in
slices of `interval_size = min(len, write_buffsize)` bytes, returning the
byte sequence transmitted on the socket.  The fuel len+1 covers every
iteration (each non-final iteration adds at least one byte to the total). -/
def __gurthang_lib_chunk_send_data (cinfo : comux_cinfo_t)
    (write_buffsize : Nat) : List Nat :=
  let interval := if cinfo.len > write_buffsize then write_buffsize else cinfo.len
  __gurthang_lib_chunk_send_data_loop (cinfo.len + 1) cinfo.data cinfo.len
    interval 0 0 []

/-- Outcome of one chunk worker thread. -/
inductive chunk_outcome where
  | fatal (code : Nat)
  | skipped
  | completed (sent : List Nat)
deriving DecidableEq, Repr

/-- __gurthang_lib_chunk_main from preload.c: a worker whose connection-table
entry is CLOSED_REMOTE exits cleanly (pthread_exit inside
chunk_get_connection); otherwise a connection is obtained (connection and
send system calls are modelled as succeeding), the chunk data is loaded from
stdin, and a zero-byte load terminates the whole process through fatality()
with FATAL_EXIT_CODE; otherwise the data is transmitted.  The
AWAIT_RESPONSE receive phase does not affect this outcome and is not
modelled. -/
def __gurthang_lib_chunk_main (cinfo : comux_cinfo_t) (offset : Nat)
    (status : ctable_status_t) (stdin_bytes : List Nat)
    (write_buffsize : Nat) : chunk_outcome :=
  match status with
  | .CLOSED_REMOTE => .skipped
  | _ =>
    let r := __gurthang_lib_chunk_load_data cinfo offset stdin_bytes
    if r.2 = 0 then .fatal FATAL_EXIT_CODE
    else .completed (__gurthang_lib_chunk_send_data r.1 write_buffsize)

/-- C10: a chunk whose payload loads as zero bytes — a declared length of
zero, or no payload bytes available at the recorded offset — makes the worker
terminate the entire host process with fatal exit code 24060 rather than
transmit an empty payload; and the chunk validator ignores the length field
entirely, so zero-length chunks pass validation (the codec accepts them too:
they are well-formed for the C1 roundtrip). -/
theorem gurthang_chunk_main_zero_len_fatal (cinfo : comux_cinfo_t)
    (offset : Nat) (status : ctable_status_t) (stdin_bytes : List Nat)
    (write_buffsize : Nat)
    (hstatus : status ≠ .CLOSED_REMOTE)
    (hzero : cinfo.len = 0 ∨ (stdin_bytes.drop (offset + 20)).length = 0) :
    __gurthang_lib_chunk_main cinfo offset status stdin_bytes write_buffsize =
      .fatal 24060 ∧
    (∀ h : comux_header_t, __gurthang_mut_check_comux_cinfo h cinfo =
      __gurthang_mut_check_comux_cinfo h { cinfo with len := 0 }) := by
  constructor
  · have hload : (__gurthang_lib_chunk_load_data cinfo offset stdin_bytes).2 = 0 := by
      rw [__gurthang_lib_chunk_load_data]
      simp only [comux_cinfo_data_read_spec, comux_cinfo_data_offset]
      omega
    cases status with
    | CLOSED_REMOTE => exact absurd rfl hstatus
    | DEAD =>
      simp only [__gurthang_lib_chunk_main, hload]
      rfl
    | ALIVE =>
      simp only [__gurthang_lib_chunk_main, hload]
      rfl
  · intro h
    rfl

/-- Witness for C10: a zero-length chunk on an ALIVE connection with a
40-byte stdin stream is fatal with code 24060, and validation of the chunk
does not depend on its length. -/
theorem gurthang_chunk_main_zero_len_fatal_witness :
    (ctable_status_t.ALIVE ≠ ctable_status_t.CLOSED_REMOTE) ∧
    (({ id := 0, len := 0, sched := 0, flags := 0, data := [] } :
        comux_cinfo_t).len = 0 ∨
      ((List.replicate 40 0).drop (0 + 20)).length = 0) ∧
    (__gurthang_lib_chunk_main
        { id := 0, len := 0, sched := 0, flags := 0, data := [] } 0
        .ALIVE (List.replicate 40 0) 2048 = .fatal 24060 ∧
    (∀ h : comux_header_t, __gurthang_mut_check_comux_cinfo h
        { id := 0, len := 0, sched := 0, flags := 0, data := [] } =
      __gurthang_mut_check_comux_cinfo h
        { id := 0, len := 0, sched := 0, flags := 0, data := [] })) :=
  ⟨by decide, by decide,
   gurthang_chunk_main_zero_len_fatal
     { id := 0, len := 0, sched := 0, flags := 0, data := [] } 0
     .ALIVE (List.replicate 40 0) 2048 (by decide) (by decide)⟩

/-- C3 (code evaluated at the failing input): a 5-byte payload sent in slices
of 2 bytes transmits the byte sequence [10, 11, 12, 13, 12] — the third send
re-sends the second slice because the source passes `dptr + wcount` (the
previous return value of send) instead of `dptr + total_wcount`, and the
final payload byte 14 is never transmitted.  Every sibling loop in the
sources (comux_cinfo_data_write, the stdout copy in chunk_recv_data) offsets
by the running total, and the comment above the loop states that all bytes of
the data segment are sent, so the claim reflects the intent and the code is a
slip. -/
theorem gurthang_chunk_send_data_stale_offset :
    __gurthang_lib_chunk_send_data
      { id := 0, len := 5, sched := 0, flags := 0, data := [10, 11, 12, 13, 14] } 2 =
      [10, 11, 12, 13, 12] ∧
    [10, 11, 12, 13, 12] ≠ [10, 11, 12, 13, 14] := by
  constructor
  · decide
  · decide

/-! ## The controller dispatch order (preload.c) -/

/-- One pass of the controller selection loop in
__gurthang_lib_controller_main: `next` starts at the list head and
dllist_iterate visits every element, replacing `next` whenever the element
has a strictly lower sched (`cinfo->sched < next->sched`), so the earliest
element among equal minima is kept.  Chunks are paired with their index in
the manifest (byte-stream) order, standing for the identity of the list
node. -/
def controller_select (head : Nat × comux_cinfo_t)
    (l : List (Nat × comux_cinfo_t)) : Nat × comux_cinfo_t :=
  l.foldl (fun next c => if c.2.sched < next.2.sched then c else next) head

/-- dllist_remove from list.c, applied to the selected node: removes the first
occurrence of the given element (elements carry their distinct byte-stream
index, so the first occurrence is the node itself). -/
def dllist_remove_first (x : Nat × comux_cinfo_t) :
    List (Nat × comux_cinfo_t) → List (Nat × comux_cinfo_t)
  | [] => []
  | y :: t => if y = x then t else y :: dllist_remove_first x t

/-- The controller dispatch loop of __gurthang_lib_controller_main: while the
list is nonempty, select the first element of minimal sched, remove it from
the list, and spawn its worker next.  The fuel equals the initial list
length; every pass removes one element. -/
def controller_dispatch_loop :
    Nat → List (Nat × comux_cinfo_t) → List (Nat × comux_cinfo_t)
  | 0, _ => []
  | _, [] => []
  | fuel + 1, h :: t =>
    let next := controller_select h (h :: t)
    next :: controller_dispatch_loop fuel (dllist_remove_first next (h :: t))

/-- The order in which __gurthang_lib_controller_main spawns chunk workers,
on the manifest chunk list paired with its byte-stream indices. -/
def controller_dispatch (cs : List comux_cinfo_t) :
    List (Nat × comux_cinfo_t) :=
  controller_dispatch_loop cs.length cs.enum

/-- Strict dispatch precedence: lower sched first, ties broken by the
byte-stream index. -/
def sched_idx_lt (a b : Nat × comux_cinfo_t) : Prop :=
  a.2.sched < b.2.sched ∨ (a.2.sched = b.2.sched ∧ a.1 < b.1)

instance (a b : Nat × comux_cinfo_t) : Decidable (sched_idx_lt a b) := by
  unfold sched_idx_lt; infer_instance

theorem dllist_remove_first_subset (x : Nat × comux_cinfo_t) :
    ∀ (l : List (Nat × comux_cinfo_t)) (c : Nat × comux_cinfo_t),
    c ∈ dllist_remove_first x l → c ∈ l
  | [], c, hc => by simp [dllist_remove_first] at hc
  | y :: t, c, hc => by
    rw [dllist_remove_first] at hc
    split_ifs at hc with hy
    · exact List.mem_cons_of_mem y hc
    · rcases List.mem_cons.mp hc with hcy | hct
      · exact hcy ▸ List.mem_cons_self y t
      · exact List.mem_cons_of_mem y (dllist_remove_first_subset x t c hct)

theorem dllist_remove_first_pairwise {R : (Nat × comux_cinfo_t) → (Nat × comux_cinfo_t) → Prop}
    (x : Nat × comux_cinfo_t) :
    ∀ (l : List (Nat × comux_cinfo_t)), l.Pairwise R →
    (dllist_remove_first x l).Pairwise R
  | [], _ => by rw [dllist_remove_first]; exact List.Pairwise.nil
  | y :: t, hpw => by
    rw [dllist_remove_first]
    split_ifs with hy
    · exact (List.pairwise_cons.mp hpw).2
    · refine List.pairwise_cons.mpr ⟨?_, dllist_remove_first_pairwise x t (List.pairwise_cons.mp hpw).2⟩
      intro c hc
      exact (List.pairwise_cons.mp hpw).1 c (dllist_remove_first_subset x t c hc)

theorem perm_cons_dllist_remove_first (x : Nat × comux_cinfo_t) :
    ∀ (l : List (Nat × comux_cinfo_t)), x ∈ l →
    l.Perm (x :: dllist_remove_first x l)
  | [], hx => by simp at hx
  | y :: t, hx => by
    rw [dllist_remove_first]
    split_ifs with hy
    · rw [hy]
    · have hxt : x ∈ t := by
        rcases List.mem_cons.mp hx with hxy | hxt
        · exact absurd hxy.symm hy
        · exact hxt
      exact ((perm_cons_dllist_remove_first x t hxt).cons y).trans
        (List.Perm.swap x y (dllist_remove_first x t))

theorem dllist_remove_first_length (x : Nat × comux_cinfo_t)
    (l : List (Nat × comux_cinfo_t)) (hx : x ∈ l) :
    (dllist_remove_first x l).length + 1 = l.length := by
  have := (perm_cons_dllist_remove_first x l hx).length_eq
  simp at this
  omega

theorem dllist_remove_first_ne (x : Nat × comux_cinfo_t) :
    ∀ (l : List (Nat × comux_cinfo_t)), l.Pairwise (fun a b => a.1 < b.1) →
    ∀ c ∈ dllist_remove_first x l, c ≠ x
  | [], _, c, hc => by simp [dllist_remove_first] at hc
  | y :: t, hpw, c, hc => by
    rw [dllist_remove_first] at hc
    split_ifs at hc with hy
    · intro hcx
      rw [← hy] at hcx
      have := (List.pairwise_cons.mp hpw).1 c hc
      rw [hcx] at this
      exact Nat.lt_irrefl _ this
    · rcases List.mem_cons.mp hc with hcy | hct
      · rw [hcy]
        exact fun h => hy h
      · exact dllist_remove_first_ne x t (List.pairwise_cons.mp hpw).2 c hct

theorem controller_select_cons_self (h : Nat × comux_cinfo_t)
    (t : List (Nat × comux_cinfo_t)) :
    controller_select h (h :: t) = controller_select h t := by
  rw [controller_select, List.foldl_cons, ite_self]
  rfl

theorem controller_select_spec :
    ∀ (t : List (Nat × comux_cinfo_t)) (a : Nat × comux_cinfo_t),
    (∀ c ∈ t, a.1 < c.1) → List.Pairwise (fun x y => x.1 < y.1) t →
    (controller_select a t = a ∨ controller_select a t ∈ t) ∧
    (controller_select a t).2.sched ≤ a.2.sched ∧
    (controller_select a t ≠ a → (controller_select a t).2.sched < a.2.sched) ∧
    (∀ c ∈ a :: t, c ≠ controller_select a t → sched_idx_lt (controller_select a t) c)
  | [], a, _, _ => by
    refine ⟨Or.inl rfl, le_refl _, fun hne => absurd rfl hne, ?_⟩
    intro c hc hne
    simp only [List.mem_singleton] at hc
    exact absurd hc hne
  | b :: t, a, hidx, hpw => by
    have hstep : controller_select a (b :: t) =
        controller_select (if b.2.sched < a.2.sched then b else a) t := by
      rw [controller_select, List.foldl_cons]
      rfl
    have hab : a.1 < b.1 := hidx b (by simp)
    have hbt : ∀ c ∈ t, b.1 < c.1 := fun c hc => (List.pairwise_cons.mp hpw).1 c hc
    have hat : ∀ c ∈ t, a.1 < c.1 := fun c hc => hidx c (by simp [hc])
    have hpwt : List.Pairwise (fun x y => x.1 < y.1) t :=
      (List.pairwise_cons.mp hpw).2
    by_cases hb : b.2.sched < a.2.sched
    · rw [hstep, if_pos hb]
      obtain ⟨hmem, hle, hstrict, hall⟩ := controller_select_spec t b hbt hpwt
      refine ⟨?_, by omega, fun _ => by omega, ?_⟩
      · rcases hmem with hmb | hmt
        · exact Or.inr (by simp [hmb])
        · exact Or.inr (by simp [hmt])
      · intro c hc hne
        rcases List.mem_cons.mp hc with hca | hcbt
        · rw [hca]
          exact Or.inl (by omega)
        · exact hall c hcbt hne
    · rw [hstep, if_neg hb]
      obtain ⟨hmem, hle, hstrict, hall⟩ := controller_select_spec t a hat hpwt
      refine ⟨?_, hle, hstrict, ?_⟩
      · rcases hmem with hma | hmt
        · exact Or.inl hma
        · exact Or.inr (by simp [hmt])
      · intro c hc hne
        rcases List.mem_cons.mp hc with hca | hcbt
        · rw [hca]
          exact hall a (by simp) (hca ▸ hne)
        · rcases List.mem_cons.mp hcbt with hcb | hct
          · by_cases hm : controller_select a t = a
            · rw [hm, hcb]
              rcases Nat.lt_or_ge a.2.sched b.2.sched with hlt | hge
              · exact Or.inl hlt
              · exact Or.inr ⟨by omega, hab⟩
            · have hsa := hstrict hm
              rw [hcb]
              exact Or.inl (by omega)
          · exact hall c (by simp [hct]) hne

theorem controller_dispatch_loop_spec :
    ∀ (fuel : Nat) (l : List (Nat × comux_cinfo_t)),
    l.length ≤ fuel → List.Pairwise (fun x y => x.1 < y.1) l →
    (controller_dispatch_loop fuel l).Perm l ∧
    List.Pairwise sched_idx_lt (controller_dispatch_loop fuel l)
  | 0, l, hlen, _ => by
    have hnil : l = [] := List.eq_nil_of_length_eq_zero (by omega)
    subst hnil
    exact ⟨List.Perm.refl _, List.Pairwise.nil⟩
  | fuel + 1, [], _, _ => ⟨List.Perm.refl _, List.Pairwise.nil⟩
  | fuel + 1, h :: t, hlen, hpw => by
    have hht : ∀ c ∈ t, h.1 < c.1 := fun c hc => (List.pairwise_cons.mp hpw).1 c hc
    have hpwt : List.Pairwise (fun x y => x.1 < y.1) t :=
      (List.pairwise_cons.mp hpw).2
    obtain ⟨hmem0, hle, hstrict, hall⟩ := controller_select_spec t h hht hpwt
    have hmem : controller_select h (h :: t) ∈ h :: t := by
      rw [controller_select_cons_self]
      rcases hmem0 with hmh | hmt
      · simp [hmh]
      · simp [hmt]
    have herase_len :
        (dllist_remove_first (controller_select h (h :: t)) (h :: t)).length + 1 =
          (h :: t).length :=
      dllist_remove_first_length _ _ hmem
    have herase_pw :
        List.Pairwise (fun x y => x.1 < y.1)
          (dllist_remove_first (controller_select h (h :: t)) (h :: t)) :=
      dllist_remove_first_pairwise _ _ hpw
    obtain ⟨ihperm, ihpw⟩ := controller_dispatch_loop_spec fuel
      (dllist_remove_first (controller_select h (h :: t)) (h :: t))
      (by simp at herase_len hlen; omega) herase_pw
    rw [controller_dispatch_loop]
    constructor
    · exact ((ihperm.cons _).trans (perm_cons_dllist_remove_first _ _ hmem).symm)
    · refine List.pairwise_cons.mpr ⟨?_, ihpw⟩
      intro c hc
      have hcerase : c ∈ dllist_remove_first (controller_select h (h :: t)) (h :: t) :=
        ihperm.subset hc
      have hcne : c ≠ controller_select h (h :: t) :=
        dllist_remove_first_ne _ _ hpw c hcerase
      have hcl : c ∈ h :: t := dllist_remove_first_subset _ _ c hcerase
      rw [controller_select_cons_self] at hcne ⊢
      exact hall c hcl hcne

theorem le_fst_of_mem_enumFrom :
    ∀ (l : List comux_cinfo_t) (m : Nat) (x : Nat × comux_cinfo_t),
    x ∈ l.enumFrom m → m ≤ x.1
  | [], m, x, hx => by simp [List.enumFrom] at hx
  | b :: l, m, x, hx => by
    rw [List.enumFrom_cons] at hx
    rcases List.mem_cons.mp hx with hxb | hxl
    · simp [hxb]
    · have := le_fst_of_mem_enumFrom l (m + 1) x hxl
      omega

theorem pairwise_fst_lt_enumFrom :
    ∀ (l : List comux_cinfo_t) (n : Nat),
    List.Pairwise (fun x y => x.1 < y.1) (l.enumFrom n)
  | [], _ => by simp [List.enumFrom]
  | a :: l, n => by
    rw [List.enumFrom_cons]
    refine List.pairwise_cons.mpr ⟨?_, pairwise_fst_lt_enumFrom l (n + 1)⟩
    intro c hc
    have := le_fst_of_mem_enumFrom l (n + 1) c hc
    omega

/-- The four chunks of the Sc2 interleaving example: (conn, sched) pairs
(0,8), (1,2), (1,4), (0,1) in byte-stream order. -/
def comux_c4_example : List comux_cinfo_t :=
  [{ id := 0, len := 1, sched := 8, flags := 0, data := [68] },
   { id := 1, len := 1, sched := 2, flags := 0, data := [66] },
   { id := 1, len := 1, sched := 4, flags := 0, data := [67] },
   { id := 0, len := 1, sched := 1, flags := 0, data := [65] }]

/-- C4: the controller dispatches (spawns one worker per chunk) a permutation
of the manifest chunk list in which every earlier chunk either has a strictly
lower sched, or an equal sched and an earlier byte-stream position — that is,
ascending sched with ties broken by array order; on the Sc2 example the
dispatch order is the 4th, 2nd, 3rd, then 1st chunk. -/
theorem gurthang_controller_dispatch_order (cs : List comux_cinfo_t) :
    (controller_dispatch cs).Perm cs.enum ∧
    List.Pairwise sched_idx_lt (controller_dispatch cs) ∧
    controller_dispatch comux_c4_example =
      [(3, { id := 0, len := 1, sched := 1, flags := 0, data := [65] }),
       (1, { id := 1, len := 1, sched := 2, flags := 0, data := [66] }),
       (2, { id := 1, len := 1, sched := 4, flags := 0, data := [67] }),
       (0, { id := 0, len := 1, sched := 8, flags := 0, data := [68] })] := by
  have hpw : List.Pairwise (fun x y => x.1 < y.1) cs.enum :=
    pairwise_fst_lt_enumFrom cs 0
  have hlen : cs.enum.length ≤ cs.length := by simp
  obtain ⟨hperm, hpairwise⟩ :=
    controller_dispatch_loop_spec cs.length cs.enum hlen hpw
  exact ⟨hperm, hpairwise, by decide⟩

/-! ## The trimmer feedback (mutator.c, afl_custom_post_trim) -/

/-- The trimming-progress fields of gurthang_mut_t used by
afl_custom_post_trim (the payload baseline restore on failure does not
affect the counters or the return value). -/
structure gurthang_trim_state where
  trim_steps : Nat
  trim_count : Nat
  trim_success_count : Nat
deriving DecidableEq, Repr

/-- afl_custom_post_trim from mutator.c: increments the step counter and the
success counter, then returns the maximum step index (trim_steps) when the
check point has been reached (at least 100 steps, OR at least 25% of the
steps — whichever comes first, as the source comment says) and the success
rate is below 10%; otherwise it returns the current step index.  The float
comparisons are rendered as exact integer conditions, which agree with the
IEEE single-precision evaluation at every reachable state:
`(float)count/(float)steps >= 0.25` holds exactly when `4*count >= steps`
(0.25f is exact, and steps < 2^24), and `(float)successes/(float)count <
0.1f` holds exactly when `10*successes < count` (0.1f is the float just
above 1/10, and the quotient is never within half an ulp of it for
count < 2^20). -/
def afl_custom_post_trim (st : gurthang_trim_state) (success : Bool) :
    gurthang_trim_state × Nat :=
  let count := st.trim_count + 1
  let successes := st.trim_success_count + (if success then 1 else 0)
  let st2 := { st with trim_count := count, trim_success_count := successes }
  if (count ≥ 100 ∨ 4 * count ≥ st.trim_steps) ∧ 10 * successes < count then
    (st2, st.trim_steps)
  else (st2, count)

/-- C7 (amended): during a run (the new step index still below trim_steps),
the post-step feedback returns the maximum step index iff at least 100 steps
or at least 25% of trim_steps have completed — whichever comes FIRST, i.e.
after min(100, 25% of trim_steps) steps, not max — and the success rate so
far is below 10%; in every other case it returns the current step index. -/
theorem afl_custom_post_trim_spec (st : gurthang_trim_state) (success : Bool)
    (hrun : st.trim_count + 1 < st.trim_steps) :
    ((afl_custom_post_trim st success).2 = st.trim_steps ↔
      ((st.trim_count + 1 ≥ 100 ∨ 4 * (st.trim_count + 1) ≥ st.trim_steps) ∧
        10 * (st.trim_success_count + (if success then 1 else 0)) <
          st.trim_count + 1)) ∧
    (¬ ((st.trim_count + 1 ≥ 100 ∨ 4 * (st.trim_count + 1) ≥ st.trim_steps) ∧
        10 * (st.trim_success_count + (if success then 1 else 0)) <
          st.trim_count + 1) →
      (afl_custom_post_trim st success).2 = st.trim_count + 1) := by
  simp only [afl_custom_post_trim]
  by_cases hcond : (st.trim_count + 1 ≥ 100 ∨ 4 * (st.trim_count + 1) ≥ st.trim_steps) ∧
      10 * (st.trim_success_count + (if success then 1 else 0)) < st.trim_count + 1
  · rw [if_pos hcond]
    exact ⟨⟨fun _ => hcond, fun _ => rfl⟩, fun hn => absurd hcond hn⟩
  · rw [if_neg hcond]
    refine ⟨⟨fun heq => ?_, fun hc => absurd hc hcond⟩, fun _ => rfl⟩
    simp only [] at heq
    omega

/-- Witness for C7: the amended theorem applied at trim_steps = 120,
trim_count = 105, one prior success, on a failing step. -/
theorem afl_custom_post_trim_spec_witness :
    ((105 : Nat) + 1 < 120) ∧
    (((afl_custom_post_trim ⟨120, 105, 1⟩ false).2 = 120 ↔
      (((105 : Nat) + 1 ≥ 100 ∨ 4 * (105 + 1) ≥ 120) ∧
        10 * (1 + (if false then 1 else 0)) < 105 + 1)) ∧
    (¬ (((105 : Nat) + 1 ≥ 100 ∨ 4 * (105 + 1) ≥ 120) ∧
        10 * (1 + (if false then 1 else 0)) < 105 + 1) →
      (afl_custom_post_trim ⟨120, 105, 1⟩ false).2 = 105 + 1)) :=
  ⟨by decide, afl_custom_post_trim_spec ⟨120, 105, 1⟩ false (by decide)⟩

/-- Counterexample for C7 as stated: with trim_steps = 200 and 49 completed
steps, all failures, the 50th feedback call returns the maximum index 200 —
the source checks `count >= 100 || progress >= 0.25` (whichever comes first)
— although only 50 steps have completed, below max(100, 25% of 200) = 100,
so the claim (the maximum is returned only once at least max(100, 25% of
trim_steps) steps have completed) fails at this state. -/
theorem afl_custom_post_trim_counterexample :
    ¬ (((afl_custom_post_trim ⟨200, 49, 0⟩ false).2 = 200) ↔
        (49 + 1 ≥ max 100 ((25 * 200) / 100) ∧ 10 * 0 < 49 + 1)) := by
  decide

/-! ## The keyword dictionary (dict.c) -/

/-- DICT_ENTRY_MAXLEN from dict.h. -/
def DICT_ENTRY_MAXLEN : Nat := 128

/-- DICT_MAXLEN from dict.h: the capacity of the entries array. -/
def DICT_MAXLEN : Nat := 2048

/-- dict_entry_t from dict.h.  Strings are NUL-free byte lists (the C
strings are NUL-terminated; the snprintf copy in dict_entry_init and the
strcmp comparisons agree with this model on NUL-free contents). -/
structure dict_entry_t where
  str : List Nat
  len : Nat
deriving DecidableEq, Repr

instance : Inhabited dict_entry_t := ⟨⟨[], 0⟩⟩

/-- dict_entry_init from dict.c: fails on an empty or over-long string,
otherwise copies the string and records its length. -/
def dict_entry_init (str : List Nat) (str_len : Nat) : Option dict_entry_t :=
  if str_len = 0 ∨ str_len > DICT_ENTRY_MAXLEN then none
  else some { str := str, len := str_len }

/-- strcmp on NUL-free byte lists: lexicographic comparison returning a
negative, zero or positive value. -/
def strcmp : List Nat → List Nat → Int
  | [], [] => 0
  | [], _ :: _ => -1
  | _ :: _, [] => 1
  | a :: as, b :: bs =>
    if a < b then -1
    else if b < a then 1
    else strcmp as bs

theorem strcmp_eq_zero_iff : ∀ (a b : List Nat), strcmp a b = 0 ↔ a = b
  | [], [] => by simp [strcmp]
  | [], b :: bs => by simp [strcmp]
  | a :: as, [] => by simp [strcmp]
  | a :: as, b :: bs => by
    rw [strcmp]
    split_ifs with h1 h2
    · simp
      omega
    · simp
      omega
    · have hab : a = b := by omega
      rw [strcmp_eq_zero_iff as bs, hab]
      simp

/-- dict_entry_cmp from dict.c: strcmp on the entry strings. -/
def dict_entry_cmp (a b : dict_entry_t) : Int := strcmp a.str b.str

/-- dict_sort from dict.c: qsort over the entries with dict_entry_cmp.  The
entries hold pairwise distinct strings (dict_add rejects duplicates), so
every comparison sort produces the same result; rendered with mergeSort. -/
def dict_sort (entries : List dict_entry_t) : List dict_entry_t :=
  entries.mergeSort (fun a b => decide (dict_entry_cmp a b ≤ 0))

/-- The binary-search loop of dict_search from dict.c, with explicit fuel
(each iteration strictly shrinks the closed interval [left, right], so the
size of the dictionary plus one bounds the iterations). -/
def dict_search_loop (fuel : Nat) (entries : List dict_entry_t)
    (key : dict_entry_t) (left right : Int) : Option dict_entry_t :=
  match fuel with
  | 0 => none
  | fuel + 1 =>
    if left ≤ right then
      if dict_entry_cmp key (entries.getD ((left + right) / 2).toNat default) < 0 then
        dict_search_loop fuel entries key left ((left + right) / 2 - 1)
      else if 0 < dict_entry_cmp key (entries.getD ((left + right) / 2).toNat default) then
        dict_search_loop fuel entries key ((left + right) / 2 + 1) right
      else some (entries.getD ((left + right) / 2).toNat default)
    else none

/-- dict_search from dict.c: binary search with a stack-local key entry. -/
def dict_search (entries : List dict_entry_t) (word : List Nat) :
    Option dict_entry_t :=
  dict_search_loop (entries.length + 1) entries { str := word, len := word.length }
    0 ((entries.length : Int) - 1)

theorem dict_search_loop_sound :
    ∀ (fuel : Nat) (entries : List dict_entry_t) (key : dict_entry_t)
      (left right : Int) (e : dict_entry_t),
    0 ≤ left → right < (entries.length : Int) →
    dict_search_loop fuel entries key left right = some e →
    e ∈ entries ∧ dict_entry_cmp key e = 0
  | 0, entries, key, left, right, e, _, _, h => by
    rw [dict_search_loop] at h
    exact absurd h (by simp)
  | fuel + 1, entries, key, left, right, e, hl, hr, h => by
    rw [dict_search_loop] at h
    split_ifs at h with hle hlt hgt
    · exact dict_search_loop_sound fuel entries key left ((left + right) / 2 - 1) e
        hl (by omega) h
    · exact dict_search_loop_sound fuel entries key ((left + right) / 2 + 1) right e
        (by omega) hr h
    · have hmid : ((left + right) / 2).toNat < entries.length := by omega
      rw [List.getD_eq_getElem entries default hmid] at h hlt hgt
      simp only [Option.some.injEq] at h
      subst h
      exact ⟨List.getElem_mem hmid, by omega⟩

theorem dict_search_none_of_not_mem (entries : List dict_entry_t)
    (word : List Nat) (habs : word ∉ entries.map dict_entry_t.str) :
    dict_search entries word = none := by
  cases hs : dict_search entries word with
  | none => rfl
  | some e =>
    obtain ⟨hmem, hcmp⟩ := dict_search_loop_sound (entries.length + 1) entries
      { str := word, len := word.length } 0 ((entries.length : Int) - 1) e
      (by omega) (by omega) hs
    rw [dict_entry_cmp] at hcmp
    have heq : word = e.str := (strcmp_eq_zero_iff _ _).mp hcmp
    exact absurd (heq ▸ List.mem_map_of_mem dict_entry_t.str hmem) habs

/-- dict_add from dict.c: rejects a string already present (via dict_search)
and a string dict_entry_init refuses; otherwise the entry is written at index
`size` of the entries array, the size is incremented, and the dictionary is
re-sorted.  There is NO capacity check against DICT_MAXLEN: the write at
index `size` and the success return happen even when the array is already
full (dict.h promises failure when the dictionary has no room). -/
def dict_add (entries : List dict_entry_t) (str : List Nat) (str_len : Nat) :
    Option (List dict_entry_t) :=
  if (dict_search entries str).isSome then none
  else
    match dict_entry_init str str_len with
    | none => none
    | some de => some (dict_sort (entries ++ [de]))

/-- The line loop of dict_from_file from dict.c over the lines getline
returns (each line includes its trailing newline byte): the final byte is
overwritten with NUL and the remaining rcount-1 bytes are added; any
dict_add failure makes the loader fail. -/
def dict_from_file_loop :
    List (List Nat) → List dict_entry_t → Option (List dict_entry_t)
  | [], d => some d
  | line :: rest, d =>
    match dict_add d line.dropLast (line.length - 1) with
    | none => none
    | some d2 => dict_from_file_loop rest d2

/-- dict_from_file from dict.c, over the list of newline-terminated lines of
the file. -/
def dict_from_file (lines : List (List Nat)) : Option (List dict_entry_t) :=
  dict_from_file_loop lines []

theorem dict_add_success (d : List dict_entry_t) (str : List Nat) (str_len : Nat)
    (hlen : str_len ≠ 0 ∧ str_len ≤ DICT_ENTRY_MAXLEN)
    (habs : str ∉ d.map dict_entry_t.str) :
    ∃ d2, dict_add d str str_len = some d2 ∧ d2.length = d.length + 1 ∧
      (d2.map dict_entry_t.str).Perm (str :: d.map dict_entry_t.str) := by
  rw [dict_add, dict_search_none_of_not_mem d str habs]
  have hinit : dict_entry_init str str_len = some { str := str, len := str_len } := by
    rw [dict_entry_init, if_neg (by omega)]
  rw [hinit]
  simp only [Option.isSome_none, Bool.false_eq_true, if_false]
  have hperm : (dict_sort (d ++ [{ str := str, len := str_len }])).Perm
      (d ++ [{ str := str, len := str_len }]) := List.mergeSort_perm _ _
  refine ⟨_, rfl, ?_, ?_⟩
  · rw [hperm.length_eq]
    simp
  · refine (hperm.map dict_entry_t.str).trans ?_
    rw [List.map_append]
    exact List.perm_append_singleton _ _

theorem dict_from_file_loop_success :
    ∀ (lines : List (List Nat)) (d : List dict_entry_t),
    (∀ l ∈ lines, 2 ≤ l.length ∧ l.length ≤ DICT_ENTRY_MAXLEN + 1) →
    lines.Pairwise (fun a b => a.dropLast ≠ b.dropLast) →
    (∀ l ∈ lines, l.dropLast ∉ d.map dict_entry_t.str) →
    ∃ d2, dict_from_file_loop lines d = some d2 ∧
      d2.length = d.length + lines.length
  | [], d, _, _, _ => ⟨d, rfl, by simp⟩
  | line :: rest, d, hlen, hpw, habs => by
    obtain ⟨hl2, hl129⟩ := hlen line (by simp)
    obtain ⟨d2, hadd, hdlen, hdperm⟩ := dict_add_success d line.dropLast
      (line.length - 1) (by omega) (habs line (by simp))
    have habs2 : ∀ l ∈ rest, l.dropLast ∉ d2.map dict_entry_t.str := by
      intro l hl hmem
      have hmem2 : l.dropLast ∈ line.dropLast :: d.map dict_entry_t.str :=
        hdperm.subset hmem
      rcases List.mem_cons.mp hmem2 with heq | hmem3
      · exact absurd heq.symm ((List.pairwise_cons.mp hpw).1 l hl)
      · exact habs l (by simp [hl]) hmem3
    obtain ⟨d3, hloop, hlen3⟩ := dict_from_file_loop_success rest d2
      (fun l hl => hlen l (by simp [hl]))
      (List.pairwise_cons.mp hpw).2 habs2
    refine ⟨d3, ?_, ?_⟩
    · rw [dict_from_file_loop, hadd]
      exact hloop
    · rw [hlen3, hdlen]
      simp
      omega

/-- One line of the 2049-entry dictionary file: two printable distinct bytes
followed by the newline byte. -/
def dict_c9_line (i : Nat) : List Nat := [33 + i / 64, 33 + i % 64, 10]

/-- The 2049-line dictionary file: 2049 pairwise distinct two-byte entries. -/
def dict_c9_lines : List (List Nat) := (List.range 2049).map dict_c9_line

/-- C9 (code evaluated at the failing input): a dictionary file with 2049
pairwise distinct, non-blank, short entries — more than DICT_MAXLEN = 2048 —
is loaded SUCCESSFULLY by dict_from_file, with all 2049 entries, because
dict_add never checks the dictionary size against the capacity before
writing at index `size` (dict.h documents that adding succeeds only while
the dictionary has room); the claim that the loader fails on more than 2048
entries matches the documented intent and the code is wrong (in C the 2049th
add also writes past the end of the entries array). -/
theorem dict_from_file_capacity_overflow :
    ∃ d, dict_from_file dict_c9_lines = some d ∧ d.length = 2049 ∧
      DICT_MAXLEN < d.length := by
  have hlen : ∀ l ∈ dict_c9_lines, 2 ≤ l.length ∧ l.length ≤ DICT_ENTRY_MAXLEN + 1 := by
    intro l hl
    rw [dict_c9_lines] at hl
    obtain ⟨i, _, hi⟩ := List.mem_map.mp hl
    rw [← hi, dict_c9_line]
    refine ⟨by simp, by simp [DICT_ENTRY_MAXLEN]⟩
  have hinj : ∀ i j : Nat, i < 2049 → j < 2049 →
      (dict_c9_line i).dropLast = (dict_c9_line j).dropLast → i = j := by
    intro i j hi hj heq
    rw [dict_c9_line, dict_c9_line] at heq
    simp only [List.dropLast, List.cons.injEq] at heq
    omega
  have hpw : dict_c9_lines.Pairwise (fun a b => a.dropLast ≠ b.dropLast) := by
    rw [dict_c9_lines, List.pairwise_map]
    have hrange : (List.range 2049).Pairwise (· < ·) := List.pairwise_lt_range 2049
    refine List.Pairwise.imp_of_mem ?_ hrange
    intro i j hi hj hij heq
    have hi2049 : i < 2049 := List.mem_range.mp hi
    have hj2049 : j < 2049 := List.mem_range.mp hj
    have := hinj i j hi2049 hj2049 heq
    omega
  obtain ⟨d2, hloop, hlen2⟩ := dict_from_file_loop_success dict_c9_lines []
    hlen hpw (by simp)
  refine ⟨d2, hloop, ?_, ?_⟩
  · rw [hlen2]
    simp [dict_c9_lines]
  · rw [hlen2]
    simp [dict_c9_lines, DICT_MAXLEN]


/-! ## The mutator fuzz pipeline (mutator.c, afl_custom_fuzz) -/

instance : Inhabited comux_cinfo_t :=
  ⟨{ id := 0, len := 0, sched := 0, flags := 0, data := [] }⟩

/-- The random choices of one mutate_cinfos invocation from mutator.c, made
explicit: the selected strategy together with the random values its helper
draws (chunk indices, new schedule values, the split position) and, for the
strategies that only perturb payload bytes (surgical_havoc_mutate, the extra
havoc mutations, the dictionary word swap, the snprintf payload copies of the
split), the resulting payload bytes.  None of these helpers touches the flags
of an existing chunk except as modelled in mutate_cinfos_apply. -/
inductive gurthang_mut_op where
  | chunk_data_havoc (k : Nat) (newData : List Nat)
  | chunk_data_extra (k : Nat) (newData : List Nat)
  | chunk_dict_swap (k : Nat) (newData : List Nat)
  | chunk_sched_bump (k : Nat) (newSched : Nat)
  | chunk_split (k : Nat) (pos : Nat) (dataL dataR : List Nat) (schedL schedR : Nat)
  | chunk_splice (k1 k2 : Nat)
  | none_found
deriving DecidableEq, Repr

/-- The left (original) chunk of mutate_cinfo_split keeps its flags except
that AWAIT_RESPONSE, when set, is toggled off (`flags ^= AWAIT_RESPONSE`,
mutator.c line 647). -/
def mutate_split_left_flags (f : Nat) : Nat :=
  if f &&& COMUX_CHUNK_FLAGS_AWAIT_RESPONSE ≠ 0
  then f ^^^ COMUX_CHUNK_FLAGS_AWAIT_RESPONSE
  else f

/-- The new (right) chunk of mutate_cinfo_split starts from comux_cinfo_init
flags NONE and receives AWAIT_RESPONSE exactly when the original carried it
(mutator.c line 648). -/
def mutate_split_right_flags (f : Nat) : Nat :=
  if f &&& COMUX_CHUNK_FLAGS_AWAIT_RESPONSE ≠ 0
  then COMUX_CHUNK_FLAGS_AWAIT_RESPONSE
  else 0

/-- mutate_cinfo_splice ORs AWAIT_RESPONSE into the absorbing chunk when the
absorbed chunk carried it (mutator.c lines 738-739). -/
def mutate_splice_flags (a b : Nat) : Nat :=
  if b &&& COMUX_CHUNK_FLAGS_AWAIT_RESPONSE ≠ 0
  then a ||| COMUX_CHUNK_FLAGS_AWAIT_RESPONSE
  else a

/-- The combined effect of mutate_cinfos and the chunk write-out loop of
afl_custom_fuzz from mutator.c on the chunk array:

* the three payload strategies replace one chunk payload
  (mutate_cinfo_dict_swap does not update `len`; the havoc strategies
  preserve the length);
* mutate_cinfo_sched_bump replaces one sched value;
* mutate_cinfo_split keeps the original chunk with the left half and
  inserts the new chunk right after it (the write-out loop inserts
  new_cinfo at new_cinfo_index = k + 1), flags per the helpers above;
* mutate_cinfo_splice appends the second chunk payload onto the first
  and the write-out loop skips (deletes) the second chunk;
* when no strategy is applicable the array is written out unchanged. -/
def mutate_cinfos_apply (cs : List comux_cinfo_t) :
    gurthang_mut_op → List comux_cinfo_t
  | .chunk_data_havoc k newData => cs.set k { cs.getD k default with data := newData }
  | .chunk_data_extra k newData => cs.set k { cs.getD k default with data := newData }
  | .chunk_dict_swap k newData => cs.set k { cs.getD k default with data := newData }
  | .chunk_sched_bump k newSched => cs.set k { cs.getD k default with sched := newSched }
  | .chunk_split k pos dataL dataR schedL schedR =>
    (cs.set k
      { cs.getD k default with
        len := pos, data := dataL, sched := schedL,
        flags := mutate_split_left_flags (cs.getD k default).flags }).insertIdx (k + 1)
      { id := (cs.getD k default).id,
        len := (cs.getD k default).len - pos,
        sched := schedR,
        flags := mutate_split_right_flags (cs.getD k default).flags,
        data := dataR }
  | .chunk_splice k1 k2 =>
    (cs.set k1
      { cs.getD k1 default with
        len := (cs.getD k1 default).len + (cs.getD k2 default).data.length,
        data := (cs.getD k1 default).data ++ (cs.getD k2 default).data,
        flags :=
          mutate_splice_flags (cs.getD k1 default).flags
            (cs.getD k2 default).flags }).eraseIdx k2
  | .none_found => cs

/-- The header.num_chunks adjustment of afl_custom_fuzz: incremented when a
new chunk index was produced (split), decremented when a delete index was
produced (splice). -/
def gurthang_mut_op_num_chunks (op : gurthang_mut_op) (num_chunks : Nat) : Nat :=
  match op with
  | .chunk_split _ _ _ _ _ _ => num_chunks + 1
  | .chunk_splice _ _ => num_chunks - 1
  | _ => num_chunks

/-- The chunk-parsing loop of afl_custom_fuzz from mutator.c, iterated
num_chunks times: read the record header (failure falls back through
make_new_comux), mask the flags with COMUX_CHUNK_FLAGS_ALL (line 1132),
validate (failure falls back), force-disable NO_SHUTDOWN
(`flags &= ~COMUX_CHUNK_FLAGS_NO_SHUTDOWN`, line 1144; the 32-bit constant
4294967293 = 0xFFFFFFFD), then read the payload, which also updates `len` to
the loaded count (the subsequent explicit `len` fixup in the source is a
no-op). -/
def afl_custom_fuzz_parse_chunks (header : comux_header_t) :
    Nat → List Nat → Option (List comux_cinfo_t)
  | 0, _ => some []
  | n + 1, buff =>
    match comux_cinfo_read_buffer buff with
    | .error _ => none
    | .ok (cinfo0, rcount) =>
      match __gurthang_mut_check_comux_cinfo header
          { cinfo0 with flags := cinfo0.flags &&& COMUX_CHUNK_FLAGS_ALL } with
      | some _ => none
      | none =>
        match afl_custom_fuzz_parse_chunks header n
            (buff.drop (rcount + (comux_cinfo_data_read_buffer
              { cinfo0 with
                flags := (cinfo0.flags &&& COMUX_CHUNK_FLAGS_ALL) &&& 4294967293 }
              (buff.drop rcount)).2)) with
        | none => none
        | some rest =>
          some ((comux_cinfo_data_read_buffer
            { cinfo0 with
              flags := (cinfo0.flags &&& COMUX_CHUNK_FLAGS_ALL) &&& 4294967293 }
            (buff.drop rcount)).1 :: rest)

/-- The space tracking of the chunk write-out loop of afl_custom_fuzz:
each chunk needs 20 record bytes and `len` payload bytes out of the
remaining room; any shortfall makes the mutator return the input
unchanged. -/
def afl_custom_fuzz_write_fits : List comux_cinfo_t → Nat → Bool
  | [], _ => true
  | c :: cs, space =>
    if space < 20 then false
    else if space - 20 < c.len then false
    else afl_custom_fuzz_write_fits cs (space - 20 - c.len)

/-- What afl_custom_fuzz emits: either the encoded mutated manifest (given by
its header and chunk list — the C1 roundtrip fixes the bytes), or the input
buffer unchanged (`*outbuff = buff`, via make_new_comux on any parse or
validation failure, or directly on any write-buffer shortfall). -/
inductive gurthang_fuzz_result where
  | mutated (header : comux_header_t) (cinfos : List comux_cinfo_t)
  | unchanged (out : List Nat)
deriving DecidableEq, Repr

/-- afl_custom_fuzz from mutator.c, as a function of the input bytes, the
random choices of the mutation stage, and max_len: parse and validate the
header (falling back to the unchanged input), hard-set version to 0, parse
and validate the chunks (masking and clearing flag bits as in the source),
apply the chosen mutation, adjust num_chunks, and emit the result when it
fits in max_len. -/
def afl_custom_fuzz (buff : List Nat) (op : gurthang_mut_op) (max_len : Nat) :
    gurthang_fuzz_result :=
  match comux_header_read_buffer buff with
  | .error _ => .unchanged buff
  | .ok (header0, hcount) =>
    match __gurthang_mut_check_comux_header header0 with
    | some _ => .unchanged buff
    | none =>
      match afl_custom_fuzz_parse_chunks header0 header0.num_chunks (buff.drop hcount) with
      | none => .unchanged buff
      | some cs =>
        if max_len < 20 then .unchanged buff
        else if afl_custom_fuzz_write_fits (mutate_cinfos_apply cs op) (max_len - 20) then
          .mutated
            { header0 with
              version := 0,
              num_chunks := gurthang_mut_op_num_chunks op header0.num_chunks }
            (mutate_cinfos_apply cs op)
        else .unchanged buff

theorem nat_and_three_and_mask_no_shutdown (x : Nat) :
    ((x &&& COMUX_CHUNK_FLAGS_ALL) &&& 4294967293) &&& COMUX_CHUNK_FLAGS_NO_SHUTDOWN = 0 := by
  rw [Nat.and_assoc, Nat.and_assoc,
    (by decide : (4294967293 : Nat) &&& COMUX_CHUNK_FLAGS_NO_SHUTDOWN = 0)]
  rw [Nat.and_zero, Nat.and_zero]

theorem mutate_split_left_flags_no_shutdown (f : Nat)
    (hf : f &&& COMUX_CHUNK_FLAGS_NO_SHUTDOWN = 0) :
    mutate_split_left_flags f &&& COMUX_CHUNK_FLAGS_NO_SHUTDOWN = 0 := by
  rw [mutate_split_left_flags]
  by_cases h : f &&& COMUX_CHUNK_FLAGS_AWAIT_RESPONSE ≠ 0
  · rw [if_pos h, Nat.and_xor_distrib_right, hf,
      (by decide : COMUX_CHUNK_FLAGS_AWAIT_RESPONSE &&& COMUX_CHUNK_FLAGS_NO_SHUTDOWN = 0)]
    decide
  · rw [if_neg h]
    exact hf

theorem mutate_split_right_flags_no_shutdown (f : Nat) :
    mutate_split_right_flags f &&& COMUX_CHUNK_FLAGS_NO_SHUTDOWN = 0 := by
  rw [mutate_split_right_flags]
  by_cases h : f &&& COMUX_CHUNK_FLAGS_AWAIT_RESPONSE ≠ 0
  · rw [if_pos h]
    decide
  · rw [if_neg h]
    decide

theorem mutate_splice_flags_no_shutdown (a b : Nat)
    (ha : a &&& COMUX_CHUNK_FLAGS_NO_SHUTDOWN = 0) :
    mutate_splice_flags a b &&& COMUX_CHUNK_FLAGS_NO_SHUTDOWN = 0 := by
  rw [mutate_splice_flags]
  by_cases h : b &&& COMUX_CHUNK_FLAGS_AWAIT_RESPONSE ≠ 0
  · rw [if_pos h, Nat.and_distrib_right, ha,
      (by decide : COMUX_CHUNK_FLAGS_AWAIT_RESPONSE &&& COMUX_CHUNK_FLAGS_NO_SHUTDOWN = 0)]
    decide
  · rw [if_neg h]
    exact ha

theorem mem_insertIdx_or (n : Nat) (b : comux_cinfo_t) (l : List comux_cinfo_t)
    (a : comux_cinfo_t) (h : a ∈ l.insertIdx n b) : a = b ∨ a ∈ l := by
  by_cases hn : n ≤ l.length
  · exact (List.mem_insertIdx hn).mp h
  · rw [List.insertIdx_of_length_lt l b n (by omega)] at h
    exact Or.inr h

theorem afl_custom_fuzz_parse_chunks_no_shutdown :
    ∀ (header : comux_header_t) (n : Nat) (buff : List Nat)
      (cs : List comux_cinfo_t),
    afl_custom_fuzz_parse_chunks header n buff = some cs →
    ∀ c ∈ cs, c.flags &&& COMUX_CHUNK_FLAGS_NO_SHUTDOWN = 0
  | header, 0, buff, cs, h => by
    rw [afl_custom_fuzz_parse_chunks] at h
    simp only [Option.some.injEq] at h
    subst h
    intro c hc
    exact absurd hc (List.not_mem_nil c)
  | header, n + 1, buff, cs, h => by
    rw [afl_custom_fuzz_parse_chunks] at h
    rcases hread : comux_cinfo_read_buffer buff with e | p
    · rw [hread] at h
      exact absurd h (by simp)
    · rw [hread] at h
      simp only [] at h
      rcases hcheck : __gurthang_mut_check_comux_cinfo header
          { p.1 with flags := p.1.flags &&& COMUX_CHUNK_FLAGS_ALL } with _ | msg
      · rw [hcheck] at h
        simp only [] at h
        rcases hrest : afl_custom_fuzz_parse_chunks header n
            (buff.drop (p.2 + (comux_cinfo_data_read_buffer
              { p.1 with flags := (p.1.flags &&& COMUX_CHUNK_FLAGS_ALL) &&& 4294967293 }
              (buff.drop p.2)).2)) with _ | rest
        · rw [hrest] at h
          exact absurd h (by simp)
        · rw [hrest] at h
          simp only [Option.some.injEq] at h
          subst h
          intro c hc
          rcases List.mem_cons.mp hc with hc1 | hc2
          · rw [hc1]
            rw [comux_cinfo_data_read_buffer]
            exact nat_and_three_and_mask_no_shutdown p.1.flags
          · exact afl_custom_fuzz_parse_chunks_no_shutdown header n _ rest hrest c hc2
      · rw [hcheck] at h
        exact absurd h (by simp)

theorem mutate_cinfos_apply_no_shutdown (cs : List comux_cinfo_t)
    (op : gurthang_mut_op)
    (hcs : ∀ c ∈ cs, c.flags &&& COMUX_CHUNK_FLAGS_NO_SHUTDOWN = 0) :
    ∀ c ∈ mutate_cinfos_apply cs op,
      c.flags &&& COMUX_CHUNK_FLAGS_NO_SHUTDOWN = 0 := by
  have hget : ∀ k, (cs.getD k default).flags &&& COMUX_CHUNK_FLAGS_NO_SHUTDOWN = 0 := by
    intro k
    by_cases hk : k < cs.length
    · rw [List.getD_eq_getElem cs default hk]
      exact hcs _ (List.getElem_mem hk)
    · rw [List.getD_eq_default cs default (by omega)]
      decide
  cases op with
  | chunk_data_havoc k newData =>
    intro c hc
    simp only [mutate_cinfos_apply] at hc
    rcases List.mem_or_eq_of_mem_set hc with hmem | heq
    · exact hcs c hmem
    · rw [heq]
      exact hget k
  | chunk_data_extra k newData =>
    intro c hc
    simp only [mutate_cinfos_apply] at hc
    rcases List.mem_or_eq_of_mem_set hc with hmem | heq
    · exact hcs c hmem
    · rw [heq]
      exact hget k
  | chunk_dict_swap k newData =>
    intro c hc
    simp only [mutate_cinfos_apply] at hc
    rcases List.mem_or_eq_of_mem_set hc with hmem | heq
    · exact hcs c hmem
    · rw [heq]
      exact hget k
  | chunk_sched_bump k newSched =>
    intro c hc
    simp only [mutate_cinfos_apply] at hc
    rcases List.mem_or_eq_of_mem_set hc with hmem | heq
    · exact hcs c hmem
    · rw [heq]
      exact hget k
  | chunk_split k pos dataL dataR schedL schedR =>
    intro c hc
    simp only [mutate_cinfos_apply] at hc
    rcases mem_insertIdx_or (k + 1) _ _ c hc with heq | hmem
    · rw [heq]
      exact mutate_split_right_flags_no_shutdown (cs.getD k default).flags
    · rcases List.mem_or_eq_of_mem_set hmem with hmem2 | heq2
      · exact hcs c hmem2
      · rw [heq2]
        exact mutate_split_left_flags_no_shutdown (cs.getD k default).flags (hget k)
  | chunk_splice k1 k2 =>
    intro c hc
    simp only [mutate_cinfos_apply] at hc
    have hmem := List.mem_of_mem_eraseIdx hc
    rcases List.mem_or_eq_of_mem_set hmem with hmem2 | heq
    · exact hcs c hmem2
    · rw [heq]
      exact mutate_splice_flags_no_shutdown (cs.getD k1 default).flags
        (cs.getD k2 default).flags (hget k1)
  | none_found =>
    simp only [mutate_cinfos_apply]
    exact hcs

/-- C5 (amended): on the mutated path — header and every chunk parse and
validate, and the output fits in max_len — every chunk record the mutator
emits has the NO_SHUTDOWN flag bit (0x2) cleared, for every input and every
mutation choice: the bit is cleared during chunk parsing and no mutation
strategy sets it.  On the fallback paths, however, afl_custom_fuzz emits the
input bytes unchanged, which may themselves contain chunk records with
NO_SHUTDOWN set (see the counterexample). -/
theorem afl_custom_fuzz_no_shutdown_cleared (buff : List Nat)
    (op : gurthang_mut_op) (max_len : Nat) (header : comux_header_t)
    (cs : List comux_cinfo_t)
    (hres : afl_custom_fuzz buff op max_len = .mutated header cs) :
    ∀ c ∈ cs, c.flags &&& COMUX_CHUNK_FLAGS_NO_SHUTDOWN = 0 := by
  rw [afl_custom_fuzz] at hres
  rcases hhead : comux_header_read_buffer buff with e | p
  · rw [hhead] at hres
    exact absurd hres (by simp)
  · rw [hhead] at hres
    simp only [] at hres
    rcases hcheck : __gurthang_mut_check_comux_header p.1 with _ | msg
    · rw [hcheck] at hres
      simp only [] at hres
      rcases hparse : afl_custom_fuzz_parse_chunks p.1 p.1.num_chunks
          (buff.drop p.2) with _ | cs0
      · rw [hparse] at hres
        exact absurd hres (by simp)
      · rw [hparse] at hres
        simp only [] at hres
        by_cases h20 : max_len < 20
        · rw [if_pos h20] at hres
          exact absurd hres (by simp)
        · rw [if_neg h20] at hres
          by_cases hfits :
              afl_custom_fuzz_write_fits (mutate_cinfos_apply cs0 op) (max_len - 20) = true
          · rw [if_pos hfits] at hres
            simp only [gurthang_fuzz_result.mutated.injEq] at hres
            rw [← hres.2]
            exact mutate_cinfos_apply_no_shutdown cs0 op
              (afl_custom_fuzz_parse_chunks_no_shutdown p.1 p.1.num_chunks _ cs0 hparse)
          · rw [if_neg hfits] at hres
            exact absurd hres (by simp)
    · rw [hcheck] at hres
      exact absurd hres (by simp)

/-- A valid one-chunk input whose chunk carries both flag bits (0x3). -/
def mutator_c5_good_input : List Nat :=
  comux_header_bytes
    { magic := COMUX_MAGIC, version := 0, num_conns := 1, num_chunks := 1 } ++
  comux_cinfo_record_bytes
    { id := 0, len := 1, sched := 0, flags := 3, data := [] } ++ [65]

/-- Witness for C5: on the valid input whose single chunk carries flags 0x3
(AWAIT_RESPONSE and NO_SHUTDOWN), the fuzz pipeline takes the mutated path
and the emitted chunk has flags 0x1: NO_SHUTDOWN is stripped. -/
theorem afl_custom_fuzz_no_shutdown_cleared_witness :
    afl_custom_fuzz mutator_c5_good_input .none_found 4096 =
      .mutated { magic := COMUX_MAGIC, version := 0, num_conns := 1, num_chunks := 1 }
        [{ id := 0, len := 1, sched := 0, flags := 1, data := [65] }] ∧
    ∀ c ∈ [({ id := 0, len := 1, sched := 0, flags := 1, data := [65] } : comux_cinfo_t)],
      c.flags &&& COMUX_CHUNK_FLAGS_NO_SHUTDOWN = 0 :=
  ⟨by decide,
   afl_custom_fuzz_no_shutdown_cleared mutator_c5_good_input .none_found 4096
     { magic := COMUX_MAGIC, version := 0, num_conns := 1, num_chunks := 1 }
     [{ id := 0, len := 1, sched := 0, flags := 1, data := [65] }] (by decide)⟩

/-- An input with a valid header whose single chunk record has an
out-of-range conn_id (5 with num_conns 1) and the NO_SHUTDOWN flag set. -/
def mutator_c5_bad_input : List Nat :=
  comux_header_bytes
    { magic := COMUX_MAGIC, version := 0, num_conns := 1, num_chunks := 1 } ++
  comux_cinfo_record_bytes
    { id := 5, len := 1, sched := 0, flags := 2, data := [] } ++ [65]

/-- Counterexample for C5 as stated: on an input whose chunk fails validation
(conn_id out of range), afl_custom_fuzz emits the input bytes unchanged, and
that emitted output still contains a chunk record whose flags field is 0x2 —
NO_SHUTDOWN is NOT stripped on this execution path, refuting the claim for
every input and every execution path (including the fallback paths that emit
the input unchanged). -/
theorem afl_custom_fuzz_no_shutdown_counterexample :
    afl_custom_fuzz mutator_c5_bad_input .none_found 4096 =
      .unchanged mutator_c5_bad_input ∧
    (comux_manifest_read_buffer mutator_c5_bad_input).toOption.map
        (fun p => p.1.cinfo_list.map comux_cinfo_t.flags) = some [2] := by
  constructor
  · decide
  · decide

end Gurthang
